import Mathlib

/-!
# Resilience core of `pkg/errors`: error values, `Retry`, `CircuitBreaker`

A shallow embedding of `src/pkg/errors/{codecs,errors,utils,recovery}.go`.

Modelling conventions.

* A Go `error` interface value is a `GoError`: `nil`, a non-nil `*Error`
  (`app`), or any other error implementation (`foreign`), which exposes its
  rendered message and what `errors.Unwrap` returns for it.
* `Error.StackTrace`, `file`, `line`, `function` come from `runtime.Callers`
  and are read by none of the functions embedded here; they are left out.
  `Error.Timestamp` is kept, as an instant of an integer clock.
* Instants and durations are integers (nanoseconds), unbounded.
* Closures with effects (`fn func() error`), the clock and the cancellation
  context are functions of an explicit world state.
* `float64` arithmetic of `calculateDelay` is carried out exactly, over `ℚ`.
-/

namespace Errors

/-! ## codecs.go -/

/-- The Go type `ErrorCode`, a string. -/
abbrev ErrorCode := String

def CodeInternalError : ErrorCode := "INTERNAL_ERROR"
def CodeInvalidArgument : ErrorCode := "INVALID_ARGUMENT"
def CodeNotFound : ErrorCode := "NOT_FOUND"
def CodeAlreadyExists : ErrorCode := "ALREADY_EXISTS"
def CodePermissionDenied : ErrorCode := "PERMISSION_DENIED"
def CodeUnauthorized : ErrorCode := "UNAUTHORIZED"
def CodeServiceUnavailable : ErrorCode := "SERVICE_UNAVAILABLE"
def CodeServiceNotFound : ErrorCode := "SERVICE_NOT_FOUND"
def CodeServiceExists : ErrorCode := "SERVICE_EXISTS"
def CodeNetworkError : ErrorCode := "NETWORK_ERROR"
def CodeTimeout : ErrorCode := "TIMEOUT"
def CodeConnectionLost : ErrorCode := "CONNECTION_LOST"
def CodeConfigError : ErrorCode := "CONFIG_ERROR"
def CodeValidation : ErrorCode := "VALIDATION_ERROR"

/-- Go `(c ErrorCode) HTTPStatus()`. -/
def ErrorCode.HTTPStatus (c : ErrorCode) : Int :=
  if c = CodeInvalidArgument ∨ c = CodeValidation then 400
  else if c = CodeUnauthorized then 401
  else if c = CodePermissionDenied then 403
  else if c = CodeNotFound then 404
  else if c = CodeAlreadyExists ∨ c = CodeServiceExists then 409
  else if c = CodeInternalError ∨ c = CodeServiceUnavailable then 500
  else if c = CodeNetworkError ∨ c = CodeTimeout ∨ c = CodeConnectionLost then 503
  else 500

/-- Go `(c ErrorCode) IsClientError()`. -/
def ErrorCode.IsClientError (c : ErrorCode) : Bool :=
  let status := ErrorCode.HTTPStatus c
  decide (status ≥ 400) && decide (status < 500)

/-- Go `(c ErrorCode) IsServerError()`. -/
def ErrorCode.IsServerError (c : ErrorCode) : Bool :=
  let status := ErrorCode.HTTPStatus c
  decide (status ≥ 500) && decide (status < 600)

/-! ## errors.go -/

/-- The Go type `map[string]interface{}`: `none` is the nil map; values are
kept as their rendered text. -/
abbrev Metadata := Option (List (String × String))

/-- A value of the Go interface `error`. -/
inductive GoError where
  /-- The nil error. -/
  | nil : GoError
  /-- A non-nil `*Error` with its `Code`, `Message`, `Cause`, `Metadata`
  and `Timestamp`. -/
  | app (code : ErrorCode) (message : String) (cause : GoError)
      (metadata : Metadata) (timestamp : Int) : GoError
  /-- Another error implementation: what `Error()` renders and what
  `errors.Unwrap` gives (`nil` when it has no `Unwrap` method). -/
  | foreign (msg : String) (unwrapped : GoError) : GoError
  deriving DecidableEq, Repr

namespace GoError

/-- Go `err == nil`. -/
def isNil : GoError → Bool
  | nil => true
  | _ => false

/-- Field `Code` of a `*Error`; `none` for anything else. -/
def code? : GoError → Option ErrorCode
  | app c _ _ _ _ => some c
  | _ => none

/-- Field `Message` of a `*Error`; `none` for anything else. -/
def message? : GoError → Option String
  | app _ m _ _ _ => some m
  | _ => none

/-- Field `Cause` of a `*Error` (`Error.Unwrap`); `none` for anything else. -/
def cause? : GoError → Option GoError
  | app _ _ c _ _ => some c
  | _ => none

end GoError

open GoError

/-- Go `newError(code, message, cause, metadata)` at clock reading `now`;
the copy of a non-nil `metadata` map is the map itself as a value. -/
def newError (now : Int) (code : ErrorCode) (message : String) (cause : GoError)
    (metadata : Metadata) : GoError :=
  app code message cause metadata now

/-- Go `New(code, message)`. -/
def New (now : Int) (code : ErrorCode) (message : String) : GoError :=
  newError now code message nil none

/-- Go `Wrap(err, code, message)`; a nil `*Error` result is `nil`. -/
def Wrap (now : Int) (err : GoError) (code : ErrorCode) (message : String) : GoError :=
  match err with
  | nil => nil
  | app c m cause md ts =>
      -- newErr := newError(code, message, appErr, nil); newErr.Cause = appErr
      newError now code message (app c m cause md ts) none
  | foreign msg u => newError now code message (foreign msg u) none

/-- Go `err.Error()`: the method of `*Error` on an `app`, the rendered message
of a foreign error. In `(*Error).Error` the format
`"%s [%s]: %s (caused by: %v)"` gets three operands for four verbs, and
`fmt.Sprintf` renders the verb left without operand as `%!v(MISSING)`. The
method cannot be called on the nil error; `""` stands for that case. -/
def GoError.Error : GoError → String
  | nil => ""
  | foreign msg _ => msg
  | app c m cause _ _ =>
      if !cause.isNil then
        c ++ " [" ++ m ++ "]: " ++ GoError.Error cause ++ " (caused by: %!v(MISSING))"
      else
        c ++ ": " ++ m

/-- Go `(e *Error) HTTPStatus()`; `none` when the receiver is no `*Error`. -/
def GoError.HTTPStatus : GoError → Option Int
  | app c _ _ _ _ => some (ErrorCode.HTTPStatus c)
  | _ => none

/-- Go `(e *Error) IsClientError()`; `none` when the receiver is no `*Error`. -/
def GoError.IsClientError : GoError → Option Bool
  | app c _ _ _ _ => some (ErrorCode.IsClientError c)
  | _ => none

/-- Go `(e *Error) IsServerError()`; `none` when the receiver is no `*Error`. -/
def GoError.IsServerError : GoError → Option Bool
  | app c _ _ _ _ => some (ErrorCode.IsServerError c)
  | _ => none

/-- Go map read `m[key]` with the comma-ok result, on the entries of a map. -/
def mapGet (m : List (String × String)) (key : String) : Option String :=
  (m.find? (fun kv => kv.1 == key)).map Prod.snd

/-- Go map write `m[key] = value`, on the entries of a map: the entry of `key`
is replaced, every other entry stays. -/
def mapSet (m : List (String × String)) (key value : String) : List (String × String) :=
  (key, value) :: m.filter (fun kv => !(kv.1 == key))

/-- Go `(e *Error) GetMetadata(key)`: `some v` for `(v, true)`, `none` for
`(nil, false)`. -/
def GoError.GetMetadata : GoError → String → Option String
  | app _ _ _ md _, key =>
      match md with
      | none => none
      | some m => mapGet m key
  | _, _ => none

/-- Go `WithMetadata(err, metadata)`, with `metadata` given by its entries
(distinct keys). The `*Error` is updated in place and returned; the value
after the update is the result here. -/
def WithMetadata (now : Int) (err : GoError) (metadata : List (String × String)) : GoError :=
  match err with
  | nil => nil
  | _ =>
    let appErr : GoError :=
      match err with
      | app c m cause md ts => app c m cause md ts
      | other => Wrap now other CodeInternalError (GoError.Error other)
    match appErr with
    | app c m cause md ts =>
        -- if appErr.Metadata == nil { appErr.Metadata = make(map[string]interface{}) }
        let md0 : List (String × String) :=
          match md with
          | none => []
          | some entries => entries
        app c m cause (some (metadata.foldl (fun acc kv => mapSet acc kv.1 kv.2) md0)) ts
    | other => other

/-- Go `AddMetadata(err, key, value)`. -/
def AddMetadata (now : Int) (err : GoError) (key value : String) : GoError :=
  WithMetadata now err [(key, value)]

/-! ## utils.go -/

/-- Go `Is(err, codes...)`. -/
def Is : GoError → List ErrorCode → Bool
  | nil, _ => false
  | foreign _ unwrapped, codes =>
      -- if unwrapped := errors.Unwrap(err); unwrapped != nil { return Is(unwrapped, codes...) }
      Is unwrapped codes
  | app c _ cause _ _, codes =>
      if codes.any (fun code => c == code) then true
      else Is cause codes

/-- Go `As(err, target)`: `some c` when it returns true having stored `c` in
`*target`, `none` when it returns false. -/
def As : GoError → Option ErrorCode
  | nil => none
  | app c _ _ _ _ => some c
  | foreign _ unwrapped => As unwrapped

/-! ## middleware.go -/

/-- Go `strings.Contains(s, substr)`. -/
def stringsContains (s substr : String) : Bool :=
  decide (substr.data <:+: s.data)

/-- Go `ToError(err)`. -/
def ToError (now : Int) (err : GoError) : GoError :=
  match err with
  | nil => nil
  | app c m cause md ts => app c m cause md ts
  | foreign msg u =>
      let message := GoError.Error (foreign msg u)
      let code : ErrorCode :=
        if stringsContains message "not found" then CodeNotFound
        else if stringsContains message "already exists" then CodeAlreadyExists
        else if stringsContains message "permission denied" then CodePermissionDenied
        else if stringsContains message "unauthorized" then CodeUnauthorized
        else if stringsContains message "invalid" then CodeInvalidArgument
        else if stringsContains message "timeout" then CodeTimeout
        else CodeInternalError
      Wrap now (foreign msg u) code message

/-! ## recovery.go: retry -/

/-- Go `RetryConfig`. Durations are nanoseconds; `Multiplier` is the
`float64` factor, taken as an exact rational. -/
structure RetryConfig where
  MaxAttempts : Int
  InitialDelay : Int
  MaxDelay : Int
  Multiplier : ℚ
  Jitter : Bool
  RetryableErrors : List ErrorCode

/-- Go `time.Millisecond` and `time.Second`, in nanoseconds. -/
def Millisecond : Int := 1000000
def Second : Int := 1000000000

/-- Go `DefaultRetryConfig()`. -/
def DefaultRetryConfig : RetryConfig where
  MaxAttempts := 3
  InitialDelay := 100 * Millisecond
  MaxDelay := 10 * Second
  Multiplier := 2
  Jitter := true
  RetryableErrors :=
    [CodeNetworkError, CodeTimeout, CodeConnectionLost, CodeServiceUnavailable]

/-- Go `isRetryableError(err, retryableCodes)`, called on a non-nil `err`.
For a foreign error the code compared is that of
`Wrap(err, CodeInternalError, err.Error())`. -/
def isRetryableError (err : GoError) (retryableCodes : List ErrorCode) : Bool :=
  if retryableCodes.length = 0 then true
  else
    let appErrCode : ErrorCode :=
      match err with
      | app c _ _ _ _ => c
      | _ => CodeInternalError
    retryableCodes.any (fun code => appErrCode == code)

/-- Go conversion `time.Duration(x)` of a `float64`: truncation toward zero.
The result is not bounded here; Go leaves the conversion of a value outside
`int64` implementation-dependent. -/
def truncToDuration (x : ℚ) : Int := x.num.tdiv x.den

/-- Go `calculateDelay(config, attempt)`, where `unixNano` is what
`time.Now().UnixNano()` reads when jitter is applied. The `float64` operations
(conversion of the durations, `math.Pow`, product, comparison, jitter) are
carried out exactly over `ℚ`: the value is the one the code computes whenever
every intermediate `float64` result is exactly representable, and may differ
from it by rounding otherwise. -/
def calculateDelay (config : RetryConfig) (attempt : Nat) (unixNano : Int) : Int :=
  let delay : ℚ := (config.InitialDelay : ℚ) * config.Multiplier ^ attempt
  let delay : ℚ := if delay > (config.MaxDelay : ℚ) then (config.MaxDelay : ℚ) else delay
  let delay : ℚ :=
    if config.Jitter then
      let jitter : ℚ := (1 / 10) * delay
      delay - jitter / 2 + ((unixNano : ℚ) * jitter / 1000000000)
    else delay
  truncToDuration delay

/-- What `Retry` runs in: the operation `fn`, the context `ctx` and the
clock, over a world state `σ`. -/
structure RetryEnv (σ : Type) where
  /-- One invocation of `fn()`: its result and the world after it. -/
  fn : σ → GoError × σ
  /-- Whether `ctx.Err() != nil` in this world. -/
  ctxErr : σ → Bool
  /-- Go `time.Now().UnixNano()`. -/
  unixNano : σ → Int
  /-- The `select` between `time.After(delay)` and `ctx.Done()`: `true` when
  the `ctx.Done()` case is taken, and the world when the select returns. -/
  wait : σ → Int → Bool × σ

/-- One invocation of the operation by `Retry`. -/
structure Call (σ : Type) where
  /-- Value of the loop variable `attempt`. -/
  attempt : Nat
  /-- World in which `fn()` was entered. -/
  before : σ
  /-- What `fn()` returned. -/
  result : GoError

/-- A finished run of `Retry`: the returned error, the invocations of the
operation in order, and the final world. -/
structure RetryRun (σ : Type) where
  err : GoError
  calls : List (Call σ)
  final : σ

/-- The `for attempt := ...; attempt < config.MaxAttempts; attempt++` loop of
`Retry`, entered with the given `attempt` and `lastErr`, followed by the
statement after the loop. -/
def retryLoop {σ : Type} (env : RetryEnv σ) (config : RetryConfig)
    (attempt : Nat) (lastErr : GoError) (s : σ) : RetryRun σ :=
  if (attempt : Int) < config.MaxAttempts then
    let r := env.fn s
    let err := r.1
    let s1 := r.2
    let call : Call σ := ⟨attempt, s, err⟩
    if err.isNil then
      ⟨nil, [call], s1⟩
    else if !isRetryableError err config.RetryableErrors then
      ⟨Wrap (env.unixNano s1) err CodeInternalError
          ("non-retryable error after " ++ toString (attempt + 1) ++ " attempts"),
        [call], s1⟩
    else if (attempt : Int) = config.MaxAttempts - 1 then
      -- break, with lastErr = err
      ⟨Wrap (env.unixNano s1) err CodeInternalError
          ("failed after " ++ toString config.MaxAttempts ++ " attempts"),
        [call], s1⟩
    else if env.ctxErr s1 then
      ⟨Wrap (env.unixNano s1) err CodeTimeout "context cancelled during retry",
        [call], s1⟩
    else
      let delay := calculateDelay config attempt (env.unixNano s1)
      let w := env.wait s1 delay
      if w.1 then
        ⟨Wrap (env.unixNano w.2) err CodeTimeout "context cancelled during retry delay",
          [call], w.2⟩
      else
        let rest := retryLoop env config (attempt + 1) err w.2
        ⟨rest.err, call :: rest.calls, rest.final⟩
  else
    ⟨Wrap (env.unixNano s) lastErr CodeInternalError
        ("failed after " ++ toString config.MaxAttempts ++ " attempts"),
      [], s⟩
termination_by (config.MaxAttempts - attempt).toNat
decreasing_by omega

/-- Go `Retry(ctx, config, fn)` started in world `s`. With `MaxAttempts ≤ 0`
the loop body never runs and the result is `Wrapf(nil, ...)`, a nil `*Error`,
which is `nil` here. -/
def Retry {σ : Type} (env : RetryEnv σ) (config : RetryConfig) (s : σ) : RetryRun σ :=
  retryLoop env config 0 nil s

/-! ## recovery.go: circuit breaker -/

/-- Go `circuitState`. -/
inductive circuitState where
  | stateClosed
  | stateOpen
  | stateHalfOpen
  deriving DecidableEq, Repr

open circuitState

/-- Go `CircuitBreaker`; `lastFailure` is an instant of the clock. -/
structure CircuitBreaker where
  name : String
  failureThreshold : Int
  resetTimeout : Int
  halfOpenMaxAttempts : Int
  state : circuitState
  failureCount : Int
  lastFailure : Int
  halfOpenAttempts : Int
  deriving DecidableEq, Repr

/-- The zero `time.Time`, origin of the clock. -/
def zeroTime : Int := 0

/-- Go `NewCircuitBreaker(name, failureThreshold, resetTimeout)`. -/
def NewCircuitBreaker (name : String) (failureThreshold : Int) (resetTimeout : Int) :
    CircuitBreaker where
  name := name
  failureThreshold := failureThreshold
  resetTimeout := resetTimeout
  halfOpenMaxAttempts := 3
  state := stateClosed
  failureCount := 0
  lastFailure := zeroTime
  halfOpenAttempts := 0

/-- Go `cb.updateState(err)`, where `now` is what `time.Now()` reads. -/
def updateState (cb : CircuitBreaker) (now : Int) (err : GoError) : CircuitBreaker :=
  match cb.state with
  | stateClosed =>
      if !err.isNil then
        let cb1 := { cb with failureCount := cb.failureCount + 1 }
        if cb1.failureCount ≥ cb1.failureThreshold then
          { cb1 with state := stateOpen, lastFailure := now }
        else cb1
      else
        { cb with failureCount := 0 }
  | stateHalfOpen =>
      let cb1 := { cb with halfOpenAttempts := cb.halfOpenAttempts + 1 }
      if !err.isNil then
        { cb1 with state := stateOpen, lastFailure := now,
                   failureCount := cb1.failureThreshold }
      else
        { cb1 with state := stateClosed, failureCount := 0, halfOpenAttempts := 0 }
  | stateOpen => cb

/-- Outcome of one `Execute` call. -/
structure ExecResult (σ : Type) where
  /-- The error `Execute` returns. -/
  err : GoError
  /-- The breaker when `Execute` returns. -/
  cb : CircuitBreaker
  /-- The breaker as it stood when `fn()` was entered; `none` when `fn` was
  not invoked. -/
  ran : Option CircuitBreaker
  /-- The world when `Execute` returns. -/
  final : σ

/-- The tail of `Execute`: `err := fn(); cb.updateState(err); return err`. -/
def executeFn {σ : Type} (now : σ → Int) (fn : σ → GoError × σ)
    (cb : CircuitBreaker) (s : σ) : ExecResult σ :=
  let r := fn s
  ⟨r.1, updateState cb (now r.2) r.1, some cb, r.2⟩

/-- Go `cb.Execute(fn)` entered in world `s`; `now` is the clock
(`time.Now()`, and `time.Since(t) = now - t`). -/
def Execute {σ : Type} (now : σ → Int) (fn : σ → GoError × σ)
    (cb : CircuitBreaker) (s : σ) : ExecResult σ :=
  match cb.state with
  | stateOpen =>
      if now s - cb.lastFailure > cb.resetTimeout then
        executeFn now fn { cb with state := stateHalfOpen, halfOpenAttempts := 0 } s
      else
        ⟨New (now s) CodeServiceUnavailable ("circuit breaker '" ++ cb.name ++ "' is open"),
          cb, none, s⟩
  | stateHalfOpen =>
      if cb.halfOpenAttempts ≥ cb.halfOpenMaxAttempts then
        ⟨New (now s) CodeServiceUnavailable
            ("circuit breaker '" ++ cb.name ++ "' half-open attempts exhausted"),
          { cb with state := stateOpen, lastFailure := now s }, none, s⟩
      else executeFn now fn cb s
  | stateClosed => executeFn now fn cb s

/-- One `Execute` call of a sequence: the operation passed and the world in
which the call is made. -/
structure Invocation (σ : Type) where
  fn : σ → GoError × σ
  world : σ

/-- Successive `Execute` calls on one breaker, by one caller at a time: the
outcome of each call, in order. -/
def ExecuteSeq {σ : Type} (now : σ → Int) :
    CircuitBreaker → List (Invocation σ) → List (ExecResult σ)
  | _, [] => []
  | cb, c :: cs =>
      let r := Execute now c.fn cb c.world
      r :: ExecuteSeq now r.cb cs

/-- The breaker after successive `Execute` calls. -/
def breakerAfter {σ : Type} (now : σ → Int) :
    CircuitBreaker → List (Invocation σ) → CircuitBreaker
  | cb, [] => cb
  | cb, c :: cs => breakerAfter now (Execute now c.fn cb c.world).cb cs

/-! ## Worlds and scenarios used to state the properties of `Retry` -/

/-- The world in which `fn()` is entered `j` iterations after the iteration
with loop variable `attempt` entered it in world `s`, when every delay `select`
in between takes its timer case. -/
def worldFrom {σ : Type} (env : RetryEnv σ) (config : RetryConfig) : Nat → σ → Nat → σ
  | _, s, 0 => s
  | attempt, s, j + 1 =>
      let s1 := (env.fn s).2
      worldFrom env config (attempt + 1)
        (env.wait s1 (calculateDelay config attempt (env.unixNano s1))).2 j

/-- How `Retry` gets from one invocation `c` of the operation to the next one
`d`: `c` failed, `ctx.Err()` was nil after it, the delay `select` took its
timer case, and `d` starts in the world the `select` left, with the loop
variable one higher. -/
def retryContinues {σ : Type} (env : RetryEnv σ) (config : RetryConfig)
    (c d : Call σ) : Prop :=
  c.result.isNil = false ∧
  env.ctxErr (env.fn c.before).2 = false ∧
  (env.wait (env.fn c.before).2
    (calculateDelay config c.attempt (env.unixNano (env.fn c.before).2))).1 = false ∧
  d.before = (env.wait (env.fn c.before).2
    (calculateDelay config c.attempt (env.unixNano (env.fn c.before).2))).2 ∧
  d.attempt = c.attempt + 1

/-- An operation over a call counter: it fails with `failure` on its first
`failures` invocations and succeeds afterwards. The context `ctx` is cancelled
from the start when `cancelled` holds, and never otherwise. -/
def scriptedEnv (failure : GoError) (failures : Nat) (cancelled : Bool) : RetryEnv Nat where
  fn := fun n => (if n < failures then failure else nil, n + 1)
  ctxErr := fun _ => cancelled
  unixNano := fun _ => 0
  wait := fun n _ => (cancelled, n)

/-- A transport failure, as `NetworkError` builds it. -/
def networkFailure : GoError :=
  app CodeNetworkError "network error during dial to db" (foreign "connection refused" nil) none 0


/-! ## Worlds and operations used to state the properties of `CircuitBreaker` -/

/-- A guarded operation that fails, as in `examples/errors-basic`; the world
is the clock reading, and one invocation takes a millisecond. -/
def failingOp : Int → GoError × Int :=
  fun t => (GoError.foreign "database error" GoError.nil, t + Millisecond)

/-- A guarded operation that succeeds; one invocation takes a millisecond. -/
def succeedingOp : Int → GoError × Int :=
  fun t => (GoError.nil, t + Millisecond)

/-- The clock of a world that is its own clock reading. -/
def clockOf : Int → Int := fun t => t

/-- The breaker of `examples/errors-basic`:
`NewCircuitBreaker("database", 3, 10*time.Second)`. -/
def databaseBreaker : CircuitBreaker := NewCircuitBreaker "database" 3 (10 * Second)

/-! ## Notions used to state the properties of the error values -/

/-- The cause chain of an error, outermost first: the error, then what its
`Cause` field holds, and so on through the `*Error` links; a foreign error
ends the chain. -/
def causeChain : GoError → List GoError
  | nil => []
  | foreign msg u => [foreign msg u]
  | app c m cause md ts => app c m cause md ts :: causeChain cause

/-- Whether the cause chain ends in nothing or in a foreign error that wraps
no further error (no `Unwrap`). -/
def leafTerminated : GoError → Bool
  | nil => true
  | foreign _ u => u.isNil
  | app _ _ cause _ _ => leafTerminated cause

/-- The ordered rules of `classify` as the specification lists them:
substring looked for, code assigned. -/
def classifyRules : List (String × ErrorCode) :=
  [("not found", CodeNotFound),
   ("already exists", CodeAlreadyExists),
   ("permission denied", CodePermissionDenied),
   ("unauthorized", CodeUnauthorized),
   ("invalid", CodeInvalidArgument),
   ("timeout", CodeTimeout)]

/-- Specification of `classify`: the code of the first rule whose substring
occurs in the message, `CodeInternalError` when none does. -/
def classifySpec (message : String) : ErrorCode :=
  match classifyRules.find? (fun rule => stringsContains message rule.1) with
  | some rule => rule.2
  | none => CodeInternalError

/-! ## Notions used to state the properties of `calculateDelay` -/

/-- Inputs at which `float64` carries out `calculateDelay` without jitter
exactly: jitter is off, `Multiplier` is the whole number `k`, `InitialDelay` and
`MaxDelay` are not negative, and `k^attempt`, `InitialDelay × k^attempt` and
`MaxDelay` are below `2^53`, so that the conversions, `math.Pow`, the product
and the conversion back to a duration involve whole numbers below `2^53`
only. -/
def exactWithoutJitter (config : RetryConfig) (attempt : Nat) (k : Nat) : Prop :=
  config.Jitter = false ∧
  config.Multiplier = (k : ℚ) ∧
  0 ≤ config.InitialDelay ∧
  k ^ attempt < 2 ^ 53 ∧
  config.InitialDelay * (k : Int) ^ attempt < 2 ^ 53 ∧
  0 ≤ config.MaxDelay ∧
  config.MaxDelay < 2 ^ 53

/-! ## Properties of `Retry` -/

theorem Wrap_of_not_isNil (now : Int) (err : GoError) (code : ErrorCode) (message : String)
    (h : err.isNil = false) : Wrap now err code message = app code message err none now := by
  cases err with
  | nil => simp [GoError.isNil] at h
  | app c m cause md ts => rfl
  | foreign msg u => rfl

theorem retryLoop_calls_length_le {σ : Type} (env : RetryEnv σ) (config : RetryConfig) :
    ∀ (n attempt : Nat) (lastErr : GoError) (s : σ),
      (config.MaxAttempts - attempt).toNat = n →
      (retryLoop env config attempt lastErr s).calls.length ≤ n := by
  intro n
  induction n with
  | zero =>
    intro attempt lastErr s h
    rw [retryLoop]
    have : ¬ ((attempt : Int) < config.MaxAttempts) := by omega
    simp [this]
  | succ n ih =>
    intro attempt lastErr s h
    rw [retryLoop]
    dsimp only
    split_ifs
    all_goals first
      | (simp; done)
      | (simp only [List.length_cons, Nat.add_le_add_iff_right]
         exact ih _ _ _ (by push_cast; omega))

/-- C1: for every configuration with `MaxAttempts ≥ 1`, every context and every
operation, `Retry` invokes the operation at most `MaxAttempts` times. -/
theorem Retry_invokes_at_most_maxAttempts {σ : Type} (env : RetryEnv σ)
    (config : RetryConfig) (s : σ) (h : 1 ≤ config.MaxAttempts) :
    ((Retry env config s).calls.length : Int) ≤ config.MaxAttempts := by
  have hle := retryLoop_calls_length_le env config (config.MaxAttempts - (0 : Nat)).toNat 0 nil s rfl
  unfold Retry
  omega

theorem Retry_invokes_at_most_maxAttempts_witness :
    (1 : Int) ≤ DefaultRetryConfig.MaxAttempts ∧
    ((Retry (scriptedEnv networkFailure 7 false) DefaultRetryConfig 0).calls.length : Int)
      ≤ DefaultRetryConfig.MaxAttempts :=
  ⟨by decide,
   Retry_invokes_at_most_maxAttempts (scriptedEnv networkFailure 7 false)
     DefaultRetryConfig 0 (by decide)⟩


theorem retryLoop_success_after_failures {σ : Type} (env : RetryEnv σ) (config : RetryConfig)
    (hctx : ∀ s, env.ctxErr s = false) (hwait : ∀ s d, (env.wait s d).1 = false) :
    ∀ (n attempt : Nat) (lastErr : GoError) (s : σ),
      config.MaxAttempts = ((attempt + n + 1 : Nat) : Int) →
      (∀ j, j < n →
        (env.fn (worldFrom env config attempt s j)).1.isNil = false ∧
        isRetryableError (env.fn (worldFrom env config attempt s j)).1
          config.RetryableErrors = true) →
      (env.fn (worldFrom env config attempt s n)).1 = nil →
      (retryLoop env config attempt lastErr s).err = nil ∧
      (retryLoop env config attempt lastErr s).calls.map Call.attempt
        = List.range' attempt (n + 1) := by
  intro n
  induction n with
  | zero =>
    intro attempt lastErr s hmax _ hsucc
    rw [retryLoop]
    have h1 : (attempt : Int) < config.MaxAttempts := by omega
    simp only [worldFrom] at hsucc
    simp [h1, hsucc, GoError.isNil]
  | succ n ih =>
    intro attempt lastErr s hmax hfail hsucc
    have h0 := hfail 0 (Nat.succ_pos n)
    simp only [worldFrom] at h0
    have h1 : (attempt : Int) < config.MaxAttempts := by omega
    have h2 : ¬ ((attempt : Int) = config.MaxAttempts - 1) := by omega
    have ih1 := ih (attempt + 1) (env.fn s).1
      (env.wait (env.fn s).2 (calculateDelay config attempt (env.unixNano (env.fn s).2))).2
      (by rw [hmax]; push_cast; omega)
      (fun j hj => hfail (j + 1) (Nat.succ_lt_succ hj))
      hsucc
    rw [retryLoop]
    simp only [h1, h2, h0.1, h0.2, hctx, hwait, if_true, if_false, Bool.not_true,
      Bool.false_eq_true, List.map_cons]
    refine ⟨ih1.1, ?_⟩
    rw [ih1.2]
    rfl

/-- C2: for every `MaxAttempts = m ≥ 1`, when cancellation never fires, the
operation fails with a retryable failure on its first `m - 1` invocations and
succeeds on the next, `Retry` returns nil and invokes the operation exactly `m`
times, with the attempt index running 0, 1, ..., `m - 1`. -/
theorem Retry_succeeds_on_last_attempt {σ : Type} (env : RetryEnv σ)
    (config : RetryConfig) (s : σ) (m : Nat) (hm : 1 ≤ m)
    (hmax : config.MaxAttempts = (m : Int))
    (hctx : ∀ s, env.ctxErr s = false) (hwait : ∀ s d, (env.wait s d).1 = false)
    (hfail : ∀ j, j + 1 < m →
      (env.fn (worldFrom env config 0 s j)).1.isNil = false ∧
      isRetryableError (env.fn (worldFrom env config 0 s j)).1
        config.RetryableErrors = true)
    (hsucc : (env.fn (worldFrom env config 0 s (m - 1))).1 = nil) :
    (Retry env config s).err = nil ∧
    (Retry env config s).calls.length = m ∧
    (Retry env config s).calls.map Call.attempt = List.range m := by
  obtain ⟨n, rfl⟩ : ∃ n, m = n + 1 := ⟨m - 1, by omega⟩
  have key := retryLoop_success_after_failures env config hctx hwait n 0 nil s
    (by rw [hmax]; push_cast; omega)
    (fun j hj => hfail j (by omega))
    (by simpa using hsucc)
  unfold Retry
  refine ⟨key.1, ?_, ?_⟩
  · have := congrArg List.length key.2
    simpa using this
  · rw [key.2, List.range_eq_range']

theorem Retry_succeeds_on_last_attempt_witness :
    (Retry (scriptedEnv networkFailure 2 false) DefaultRetryConfig 0).err = nil ∧
    (Retry (scriptedEnv networkFailure 2 false) DefaultRetryConfig 0).calls.length = 3 ∧
    (Retry (scriptedEnv networkFailure 2 false) DefaultRetryConfig 0).calls.map Call.attempt
      = List.range 3 :=
  Retry_succeeds_on_last_attempt (scriptedEnv networkFailure 2 false) DefaultRetryConfig 0 3
    (by decide) rfl (fun _ => rfl) (fun _ _ => rfl)
    (fun j hj => by
      have hj2 : j = 0 ∨ j = 1 := by omega
      rcases hj2 with rfl | rfl <;> decide)
    (by decide)


theorem isRetryableError_app_of_not_mem (c : ErrorCode) (m : String) (cause : GoError)
    (md : Metadata) (ts : Int) (codes : List ErrorCode) (hne : codes ≠ [])
    (hc : c ∉ codes) : isRetryableError (app c m cause md ts) codes = false := by
  unfold isRetryableError
  have hlen : ¬ codes.length = 0 := by
    intro h
    exact hne (List.length_eq_zero.mp h)
  simp only [hlen, if_false]
  rw [Bool.eq_false_iff]
  intro hany
  rw [List.any_eq_true] at hany
  obtain ⟨x, hx, hxe⟩ := hany
  have : c = x := by simpa using hxe
  exact hc (this ▸ hx)

theorem isRetryableError_foreign_of_not_mem (msg : String) (u : GoError)
    (codes : List ErrorCode) (hne : codes ≠ [])
    (hc : CodeInternalError ∉ codes) : isRetryableError (foreign msg u) codes = false := by
  unfold isRetryableError
  have hlen : ¬ codes.length = 0 := by
    intro h
    exact hne (List.length_eq_zero.mp h)
  simp only [hlen, if_false]
  rw [Bool.eq_false_iff]
  intro hany
  rw [List.any_eq_true] at hany
  obtain ⟨x, hx, hxe⟩ := hany
  have : CodeInternalError = x := by simpa using hxe
  exact hc (this ▸ hx)

/-- C3: for every configuration with a non-empty `RetryableErrors` (and
`MaxAttempts ≥ 1`), when the operation fails with a failure whose code is
outside that set (the `Code` of an `*Error`; `CodeInternalError` for a foreign
failure, which is the code `isRetryableError` gives it), `Retry` invokes the
operation exactly once and returns an `*Error` whose cause is that failure and
whose message is "non-retryable error after 1 attempts". -/
theorem Retry_non_retryable_invokes_once {σ : Type} (env : RetryEnv σ)
    (config : RetryConfig) (s : σ) (f : GoError)
    (hmax : 1 ≤ config.MaxAttempts) (hne : config.RetryableErrors ≠ [])
    (hfn : (env.fn s).1 = f)
    (hcode : (∃ c m cause md ts, f = app c m cause md ts ∧ c ∉ config.RetryableErrors) ∨
             (∃ msg u, f = foreign msg u ∧ CodeInternalError ∉ config.RetryableErrors)) :
    (Retry env config s).calls.length = 1 ∧
    (Retry env config s).calls.map Call.result = [f] ∧
    (Retry env config s).err =
      app CodeInternalError "non-retryable error after 1 attempts" f none
        (env.unixNano (env.fn s).2) := by
  have hnil : f.isNil = false := by
    rcases hcode with ⟨c, m, cause, md, ts, rfl, _⟩ | ⟨msg, u, rfl, _⟩ <;> rfl
  have hret : isRetryableError f config.RetryableErrors = false := by
    rcases hcode with ⟨c, m, cause, md, ts, rfl, hc⟩ | ⟨msg, u, rfl, hc⟩
    · exact isRetryableError_app_of_not_mem c m cause md ts _ hne hc
    · exact isRetryableError_foreign_of_not_mem msg u _ hne hc
  have h1 : ((0 : Nat) : Int) < config.MaxAttempts := by omega
  have hmsg : "non-retryable error after " ++ toString (0 + 1) ++ " attempts"
      = "non-retryable error after 1 attempts" := by decide
  unfold Retry
  rw [retryLoop]
  simp only [h1, hfn, hnil, hret, if_true, if_false, Bool.not_false, Bool.false_eq_true,
    List.length_singleton, List.map_cons, List.map_nil, hmsg, true_and]
  exact Wrap_of_not_isNil _ _ _ _ hnil

theorem Retry_non_retryable_invokes_once_witness :
    (Retry (scriptedEnv (app CodeNotFound "user not found" nil none 0) 7 false)
      DefaultRetryConfig 0).calls.length = 1 ∧
    (Retry (scriptedEnv (app CodeNotFound "user not found" nil none 0) 7 false)
      DefaultRetryConfig 0).calls.map Call.result
      = [app CodeNotFound "user not found" nil none 0] ∧
    (Retry (scriptedEnv (app CodeNotFound "user not found" nil none 0) 7 false)
      DefaultRetryConfig 0).err =
      app CodeInternalError "non-retryable error after 1 attempts"
        (app CodeNotFound "user not found" nil none 0) none 0 :=
  Retry_non_retryable_invokes_once
    (scriptedEnv (app CodeNotFound "user not found" nil none 0) 7 false)
    DefaultRetryConfig 0 (app CodeNotFound "user not found" nil none 0)
    (by decide) (by decide) rfl
    (Or.inl ⟨CodeNotFound, "user not found", nil, none, 0, rfl, by decide⟩)


theorem retryLoop_terminal_error {σ : Type} (env : RetryEnv σ) (config : RetryConfig) :
    ∀ (n attempt : Nat) (lastErr : GoError) (s : σ),
      (config.MaxAttempts - attempt).toNat = n → 0 < n →
      (retryLoop env config attempt lastErr s).err = nil ∨
      ∃ last, (retryLoop env config attempt lastErr s).calls.getLast? = some last ∧
        last.result.isNil = false ∧
        (retryLoop env config attempt lastErr s).err.cause? = some last.result ∧
        ((retryLoop env config attempt lastErr s).err.code? = some CodeInternalError ∨
         (retryLoop env config attempt lastErr s).err.code? = some CodeTimeout) := by
  intro n
  induction n with
  | zero => intro _ _ _ _ h; exact absurd h (Nat.lt_irrefl 0)
  | succ n ih =>
    intro attempt lastErr s hn _
    have h1 : (attempt : Int) < config.MaxAttempts := by omega
    rw [retryLoop]
    simp only [h1, if_true]
    by_cases hnil : (env.fn s).1.isNil = true
    · left; simp [hnil]
    · have hnil2 : (env.fn s).1.isNil = false := by simpa using hnil
      simp only [hnil2, Bool.false_eq_true, if_false]
      split_ifs with hret hlast hctx hw
      · right
        refine ⟨⟨attempt, s, (env.fn s).1⟩, rfl, hnil2, ?_, Or.inl ?_⟩ <;>
          rw [Wrap_of_not_isNil _ _ _ _ hnil2] <;> rfl
      · right
        refine ⟨⟨attempt, s, (env.fn s).1⟩, rfl, hnil2, ?_, Or.inl ?_⟩ <;>
          rw [Wrap_of_not_isNil _ _ _ _ hnil2] <;> rfl
      · right
        refine ⟨⟨attempt, s, (env.fn s).1⟩, rfl, hnil2, ?_, Or.inr ?_⟩ <;>
          rw [Wrap_of_not_isNil _ _ _ _ hnil2] <;> rfl
      · right
        refine ⟨⟨attempt, s, (env.fn s).1⟩, rfl, hnil2, ?_, Or.inr ?_⟩ <;>
          rw [Wrap_of_not_isNil _ _ _ _ hnil2] <;> rfl
      · have hn2 : (config.MaxAttempts - ((attempt + 1 : Nat) : Int)).toNat = n := by
          push_cast; omega
        have hpos : 0 < n := by omega
        rcases ih (attempt + 1) (env.fn s).1 _ hn2 hpos with h | ⟨last, hl, hres, hcause, hcode⟩
        · left; exact h
        · right
          refine ⟨last, ?_, hres, hcause, hcode⟩
          simp only []
          cases hc : (retryLoop env config (attempt + 1) (env.fn s).1
            (env.wait (env.fn s).2
              (calculateDelay config attempt (env.unixNano (env.fn s).2))).2).calls with
          | nil => rw [hc] at hl; simp at hl
          | cons x xs => rw [hc] at hl; simpa [List.getLast?_cons_cons] using hl

/-- C4: for every configuration with `MaxAttempts ≥ 1`, whenever `Retry`
returns a non-nil error, that error is an `*Error` whose code is
`CodeInternalError` or `CodeTimeout` and whose `Cause` is the failure returned
by the last invocation of the operation. -/
theorem Retry_terminal_error {σ : Type} (env : RetryEnv σ)
    (config : RetryConfig) (s : σ) (hmax : 1 ≤ config.MaxAttempts)
    (herr : (Retry env config s).err ≠ nil) :
    ∃ last, (Retry env config s).calls.getLast? = some last ∧
      last.result.isNil = false ∧
      (Retry env config s).err.cause? = some last.result ∧
      ((Retry env config s).err.code? = some CodeInternalError ∨
       (Retry env config s).err.code? = some CodeTimeout) := by
  have key := retryLoop_terminal_error env config
    (config.MaxAttempts - ((0 : Nat) : Int)).toNat 0 nil s rfl (by omega)
  rcases key with h | h
  · exact absurd h herr
  · exact h


theorem Retry_terminal_error_witness :
    ∃ last, (Retry (scriptedEnv networkFailure 7 false) DefaultRetryConfig 0).calls.getLast?
        = some last ∧
      last.result.isNil = false ∧
      (Retry (scriptedEnv networkFailure 7 false) DefaultRetryConfig 0).err.cause?
        = some last.result ∧
      ((Retry (scriptedEnv networkFailure 7 false) DefaultRetryConfig 0).err.code?
          = some CodeInternalError ∨
       (Retry (scriptedEnv networkFailure 7 false) DefaultRetryConfig 0).err.code?
          = some CodeTimeout) :=
  Retry_terminal_error (scriptedEnv networkFailure 7 false) DefaultRetryConfig 0 (by decide)
    (by
      simp [Retry, retryLoop, scriptedEnv, networkFailure, DefaultRetryConfig,
        isRetryableError, GoError.isNil, Wrap, newError, CodeNetworkError, CodeTimeout,
        CodeConnectionLost, CodeServiceUnavailable])


/-- C5 (as stated, refuted): with `ctx` cancelled before `Retry` is called
(`ctx.Err()` non-nil in every world, `ctx.Done()` taken by every `select`),
`Retry` still invokes the operation once, and then returns the
`CodeTimeout` error. -/
theorem Retry_invokes_when_already_cancelled :
    (scriptedEnv networkFailure 7 true).ctxErr 0 = true ∧
    (Retry (scriptedEnv networkFailure 7 true) DefaultRetryConfig 0).calls.length = 1 ∧
    (Retry (scriptedEnv networkFailure 7 true) DefaultRetryConfig 0).err
      = app CodeTimeout "context cancelled during retry" networkFailure none 0 := by
  refine ⟨rfl, ?_, ?_⟩ <;>
  simp [Retry, retryLoop, scriptedEnv, networkFailure, DefaultRetryConfig,
    isRetryableError, GoError.isNil, Wrap, newError, CodeNetworkError, CodeTimeout,
    CodeConnectionLost, CodeServiceUnavailable]

theorem retryLoop_calls_chain {σ : Type} (env : RetryEnv σ) (config : RetryConfig) :
    ∀ (n attempt : Nat) (lastErr : GoError) (s : σ),
      (config.MaxAttempts - attempt).toNat = n → 0 < n →
      (∃ rest, (retryLoop env config attempt lastErr s).calls
          = ⟨attempt, s, (env.fn s).1⟩ :: rest) ∧
      List.Chain' (retryContinues env config) (retryLoop env config attempt lastErr s).calls := by
  intro n
  induction n with
  | zero => intro _ _ _ _ h; exact absurd h (Nat.lt_irrefl 0)
  | succ n ih =>
    intro attempt lastErr s hn _
    have h1 : (attempt : Int) < config.MaxAttempts := by omega
    rw [retryLoop]
    simp only [h1, if_true]
    split_ifs with hnil hret hlast hctx hw
    · exact ⟨⟨[], rfl⟩, List.chain'_singleton _⟩
    · exact ⟨⟨[], rfl⟩, List.chain'_singleton _⟩
    · exact ⟨⟨[], rfl⟩, List.chain'_singleton _⟩
    · exact ⟨⟨[], rfl⟩, List.chain'_singleton _⟩
    · exact ⟨⟨[], rfl⟩, List.chain'_singleton _⟩
    · have hn2 : (config.MaxAttempts - ((attempt + 1 : Nat) : Int)).toNat = n := by
        push_cast; omega
      have hpos : 0 < n := by omega
      obtain ⟨⟨rest, hrest⟩, hchain⟩ := ih (attempt + 1) (env.fn s).1
        (env.wait (env.fn s).2 (calculateDelay config attempt (env.unixNano (env.fn s).2))).2
        hn2 hpos
      refine ⟨⟨_, rfl⟩, ?_⟩
      simp only []
      rw [hrest] at hchain ⊢
      refine List.Chain'.cons ?_ hchain
      refine ⟨by simpa using hnil, by simpa using hctx, by simpa using hw, rfl, rfl⟩

/-- C5 (amended): `Retry` does not consult the context before the first
attempt: with `MaxAttempts ≥ 1` the operation is invoked first in the world in
which `Retry` was called, whatever the context says there. Every later
invocation follows a failed one after which `ctx.Err()` was nil and the delay
`select` took its timer case; so when the context is cancelled from the start
and stays so, the operation is invoked exactly once. -/
theorem Retry_cancellation_checked_between_attempts {σ : Type} (env : RetryEnv σ)
    (config : RetryConfig) (s : σ) (hmax : 1 ≤ config.MaxAttempts) :
    (∃ rest, (Retry env config s).calls = ⟨0, s, (env.fn s).1⟩ :: rest) ∧
    List.Chain' (retryContinues env config) (Retry env config s).calls ∧
    ((∀ w, env.ctxErr w = true) → (Retry env config s).calls.length = 1) := by
  have key := retryLoop_calls_chain env config
    (config.MaxAttempts - ((0 : Nat) : Int)).toNat 0 nil s rfl (by omega)
  unfold Retry
  refine ⟨key.1, key.2, ?_⟩
  intro hfired
  obtain ⟨rest, hrest⟩ := key.1
  have hchain := key.2
  rw [hrest] at hchain ⊢
  cases rest with
  | nil => rfl
  | cons d ds =>
    have hrel := List.Chain'.rel_head hchain
    have h2 := hrel.2.1
    rw [hfired] at h2
    exact absurd h2 (by decide)

theorem Retry_cancellation_checked_between_attempts_witness :
    (∃ rest, (Retry (scriptedEnv networkFailure 7 true) DefaultRetryConfig 0).calls
        = ⟨0, 0, ((scriptedEnv networkFailure 7 true).fn 0).1⟩ :: rest) ∧
    List.Chain' (retryContinues (scriptedEnv networkFailure 7 true) DefaultRetryConfig)
      (Retry (scriptedEnv networkFailure 7 true) DefaultRetryConfig 0).calls ∧
    (Retry (scriptedEnv networkFailure 7 true) DefaultRetryConfig 0).calls.length = 1 :=
  (fun h => ⟨h.1, h.2.1, h.2.2 (fun _ => rfl)⟩)
    (Retry_cancellation_checked_between_attempts (scriptedEnv networkFailure 7 true)
      DefaultRetryConfig 0 (by decide))

/-! ## Properties of `CircuitBreaker` -/

theorem Execute_closed_failure_below {σ : Type} (now : σ → Int) (fn : σ → GoError × σ)
    (cb : CircuitBreaker) (s : σ) (hcb : cb.state = stateClosed)
    (hfail : (fn s).1.isNil = false) (hlt : cb.failureCount + 1 < cb.failureThreshold) :
    Execute now fn cb s =
      ⟨(fn s).1, { cb with failureCount := cb.failureCount + 1 }, some cb, (fn s).2⟩ := by
  have h : ¬ (cb.failureCount + 1 ≥ cb.failureThreshold) := by omega
  simp [Execute, executeFn, updateState, hcb, hfail, h]

theorem Execute_closed_failure_reach {σ : Type} (now : σ → Int) (fn : σ → GoError × σ)
    (cb : CircuitBreaker) (s : σ) (hcb : cb.state = stateClosed)
    (hfail : (fn s).1.isNil = false) (hge : cb.failureCount + 1 ≥ cb.failureThreshold) :
    Execute now fn cb s =
      ⟨(fn s).1,
       { cb with failureCount := cb.failureCount + 1, state := stateOpen,
                 lastFailure := now (fn s).2 },
       some cb, (fn s).2⟩ := by
  simp [Execute, executeFn, updateState, hcb, hfail, hge]

theorem Execute_closed_success {σ : Type} (now : σ → Int) (fn : σ → GoError × σ)
    (cb : CircuitBreaker) (s : σ) (hcb : cb.state = stateClosed)
    (hok : (fn s).1.isNil = true) :
    Execute now fn cb s = ⟨(fn s).1, { cb with failureCount := 0 }, some cb, (fn s).2⟩ := by
  simp [Execute, executeFn, updateState, hcb, hok]

theorem breakerAfter_append {σ : Type} (now : σ → Int) :
    ∀ (calls : List (Invocation σ)) (cb : CircuitBreaker) (c : Invocation σ),
      breakerAfter now cb (calls ++ [c])
        = (Execute now c.fn (breakerAfter now cb calls) c.world).cb := by
  intro calls
  induction calls with
  | nil => intro cb c; rfl
  | cons x xs ih => intro cb c; simp only [List.cons_append, breakerAfter]; exact ih _ c

theorem ExecuteSeq_append {σ : Type} (now : σ → Int) :
    ∀ (calls : List (Invocation σ)) (cb : CircuitBreaker) (c : Invocation σ),
      ExecuteSeq now cb (calls ++ [c])
        = ExecuteSeq now cb calls ++ [Execute now c.fn (breakerAfter now cb calls) c.world] := by
  intro calls
  induction calls with
  | nil => intro cb c; rfl
  | cons x xs ih =>
    intro cb c
    show Execute now x.fn cb x.world :: ExecuteSeq now _ (xs ++ [c]) = _
    rw [ih]
    rfl

theorem breakerAfter_failures {σ : Type} (now : σ → Int) :
    ∀ (calls : List (Invocation σ)) (cb : CircuitBreaker),
      cb.state = stateClosed →
      (∀ c ∈ calls, (c.fn c.world).1.isNil = false) →
      cb.failureCount + calls.length < cb.failureThreshold →
      breakerAfter now cb calls
        = { cb with failureCount := cb.failureCount + calls.length } ∧
      ∀ r ∈ ExecuteSeq now cb calls, r.ran.isSome = true ∧ r.err.isNil = false := by
  intro calls
  induction calls with
  | nil =>
    intro cb _ _ _
    simp [breakerAfter, ExecuteSeq]
  | cons x xs ih =>
    intro cb hcb hfail hlt
    have hx := hfail x (List.mem_cons_self _ _)
    simp only [List.length_cons, Nat.cast_add, Nat.cast_one] at hlt
    have hstep := Execute_closed_failure_below now x.fn cb x.world hcb hx (by omega)
    have ih1 := ih { cb with failureCount := cb.failureCount + 1 } hcb
      (fun c hc => hfail c (List.mem_cons_of_mem _ hc)) (by simp only []; omega)
    simp only [breakerAfter, ExecuteSeq, hstep, List.mem_cons, List.length_cons,
      Nat.cast_add, Nat.cast_one]
    refine ⟨?_, ?_⟩
    · rw [ih1.1]
      simp only [CircuitBreaker.mk.injEq, true_and, and_true]
      omega
    · intro r hr
      rcases hr with rfl | hr
      · exact ⟨rfl, hx⟩
      · exact ih1.2 r hr


/-- C6: on a breaker fresh from `NewCircuitBreaker` with `failureThreshold = n ≥ 1`,
let `n - 1` failing `Execute` calls (`calls`) be followed by one more (`last`).
After the first `k` of them, for every `k < n`, the breaker is Closed with
`failureCount = k`; every one of the `n` calls invoked the operation; after the
`n`-th the breaker is Open with `lastFailure` the clock reading when that
failing operation returned. And a successful call on any Closed breaker leaves
it Closed with `failureCount = 0`. -/
theorem CircuitBreaker_opens_at_threshold {σ : Type} (now : σ → Int)
    (name : String) (n : Int) (resetTimeout : Int)
    (calls : List (Invocation σ)) (last : Invocation σ)
    (cb : CircuitBreaker) (fn : σ → GoError × σ) (s : σ)
    (hlen : (calls.length : Int) + 1 = n)
    (hfail : ∀ c ∈ calls, (c.fn c.world).1.isNil = false)
    (hlast : (last.fn last.world).1.isNil = false)
    (hcb : cb.state = stateClosed)
    (hok : (fn s).1.isNil = true) :
    (∀ k, k ≤ calls.length →
      (breakerAfter now (NewCircuitBreaker name n resetTimeout) (calls.take k)).state
        = stateClosed ∧
      (breakerAfter now (NewCircuitBreaker name n resetTimeout) (calls.take k)).failureCount
        = (k : Int)) ∧
    (∀ r ∈ ExecuteSeq now (NewCircuitBreaker name n resetTimeout) (calls ++ [last]),
      r.ran.isSome = true) ∧
    (breakerAfter now (NewCircuitBreaker name n resetTimeout) (calls ++ [last])).state
      = stateOpen ∧
    (breakerAfter now (NewCircuitBreaker name n resetTimeout) (calls ++ [last])).lastFailure
      = now (last.fn last.world).2 ∧
    (breakerAfter now (NewCircuitBreaker name n resetTimeout) (calls ++ [last])).failureCount
      = n ∧
    (Execute now fn cb s).ran.isSome = true ∧
    (Execute now fn cb s).cb.state = stateClosed ∧
    (Execute now fn cb s).cb.failureCount = 0 := by
  have hall := breakerAfter_failures now calls (NewCircuitBreaker name n resetTimeout) rfl
    hfail (by simp only [NewCircuitBreaker]; omega)
  have hreach := Execute_closed_failure_reach now last.fn
    (breakerAfter now (NewCircuitBreaker name n resetTimeout) calls) last.world
    (by rw [hall.1]; rfl) hlast
    (by rw [hall.1]; simp only [NewCircuitBreaker]; omega)
  have hsucc := Execute_closed_success now fn cb s hcb hok
  refine ⟨?_, ?_, ?_, ?_, ?_, ?_, ?_, ?_⟩
  · intro k hk
    have hpre := breakerAfter_failures now (calls.take k)
      (NewCircuitBreaker name n resetTimeout) rfl
      (fun c hc => hfail c (List.mem_of_mem_take hc))
      (by simp only [NewCircuitBreaker, List.length_take]; omega)
    rw [hpre.1]
    refine ⟨rfl, ?_⟩
    simp only [NewCircuitBreaker, List.length_take]
    omega
  · intro r hr
    rw [ExecuteSeq_append, List.mem_append, List.mem_singleton] at hr
    rcases hr with hr | rfl
    · exact (hall.2 r hr).1
    · rw [hreach]; rfl
  · rw [breakerAfter_append, hreach]
  · rw [breakerAfter_append, hreach]
  · rw [breakerAfter_append, hreach, hall.1]
    simp only [NewCircuitBreaker]
    omega
  · rw [hsucc]; rfl
  · rw [hsucc]; exact hcb
  · rw [hsucc]

theorem CircuitBreaker_opens_at_threshold_witness :
    (∀ k, k ≤ [(⟨failingOp, 0⟩ : Invocation Int), ⟨failingOp, Second⟩].length →
      (breakerAfter clockOf (NewCircuitBreaker "database" 3 (10 * Second))
        ([(⟨failingOp, 0⟩ : Invocation Int), ⟨failingOp, Second⟩].take k)).state
        = stateClosed ∧
      (breakerAfter clockOf (NewCircuitBreaker "database" 3 (10 * Second))
        ([(⟨failingOp, 0⟩ : Invocation Int), ⟨failingOp, Second⟩].take k)).failureCount
        = (k : Int)) ∧
    (∀ r ∈ ExecuteSeq clockOf (NewCircuitBreaker "database" 3 (10 * Second))
        ([(⟨failingOp, 0⟩ : Invocation Int), ⟨failingOp, Second⟩]
          ++ [⟨failingOp, 2 * Second⟩]),
      r.ran.isSome = true) ∧
    (breakerAfter clockOf (NewCircuitBreaker "database" 3 (10 * Second))
      ([(⟨failingOp, 0⟩ : Invocation Int), ⟨failingOp, Second⟩]
        ++ [⟨failingOp, 2 * Second⟩])).state = stateOpen ∧
    (breakerAfter clockOf (NewCircuitBreaker "database" 3 (10 * Second))
      ([(⟨failingOp, 0⟩ : Invocation Int), ⟨failingOp, Second⟩]
        ++ [⟨failingOp, 2 * Second⟩])).lastFailure
      = clockOf (failingOp (2 * Second)).2 ∧
    (breakerAfter clockOf (NewCircuitBreaker "database" 3 (10 * Second))
      ([(⟨failingOp, 0⟩ : Invocation Int), ⟨failingOp, Second⟩]
        ++ [⟨failingOp, 2 * Second⟩])).failureCount = 3 ∧
    (Execute clockOf succeedingOp
      { databaseBreaker with failureCount := 2 } (3 * Second)).ran.isSome = true ∧
    (Execute clockOf succeedingOp
      { databaseBreaker with failureCount := 2 } (3 * Second)).cb.state = stateClosed ∧
    (Execute clockOf succeedingOp
      { databaseBreaker with failureCount := 2 } (3 * Second)).cb.failureCount = 0 :=
  CircuitBreaker_opens_at_threshold clockOf "database" 3 (10 * Second)
    [⟨failingOp, 0⟩, ⟨failingOp, Second⟩] ⟨failingOp, 2 * Second⟩
    { databaseBreaker with failureCount := 2 } succeedingOp (3 * Second)
    (by decide) (by intro c hc; simp at hc; rcases hc with rfl | rfl <;> rfl)
    rfl rfl rfl


/-- C7: for every breaker in state Open and every `Execute` call made while
`now - lastFailure ≤ resetTimeout`, the operation is not invoked, the call
returns the `CodeServiceUnavailable` error built by `New`, and the breaker
(state, `failureCount`, `lastFailure`, `halfOpenAttempts` and the rest) and the
world are unchanged. -/
theorem Execute_open_rejects {σ : Type} (now : σ → Int) (fn : σ → GoError × σ)
    (cb : CircuitBreaker) (s : σ) (hopen : cb.state = stateOpen)
    (hwithin : now s - cb.lastFailure ≤ cb.resetTimeout) :
    (Execute now fn cb s).ran = none ∧
    (Execute now fn cb s).err
      = app CodeServiceUnavailable ("circuit breaker '" ++ cb.name ++ "' is open")
          nil none (now s) ∧
    (Execute now fn cb s).err.code? = some CodeServiceUnavailable ∧
    (Execute now fn cb s).cb = cb ∧
    (Execute now fn cb s).final = s := by
  have h : ¬ (now s - cb.lastFailure > cb.resetTimeout) := by omega
  simp [Execute, hopen, h, New, newError, GoError.code?]

theorem Execute_open_rejects_witness :
    (Execute clockOf failingOp
      { databaseBreaker with state := stateOpen, failureCount := 3, lastFailure := 2 * Second }
      (12 * Second)).ran = none ∧
    (Execute clockOf failingOp
      { databaseBreaker with state := stateOpen, failureCount := 3, lastFailure := 2 * Second }
      (12 * Second)).err
      = app CodeServiceUnavailable ("circuit breaker '" ++ "database" ++ "' is open")
          nil none (12 * Second) ∧
    (Execute clockOf failingOp
      { databaseBreaker with state := stateOpen, failureCount := 3, lastFailure := 2 * Second }
      (12 * Second)).err.code? = some CodeServiceUnavailable ∧
    (Execute clockOf failingOp
      { databaseBreaker with state := stateOpen, failureCount := 3, lastFailure := 2 * Second }
      (12 * Second)).cb
      = { databaseBreaker with state := stateOpen, failureCount := 3,
                               lastFailure := 2 * Second } ∧
    (Execute clockOf failingOp
      { databaseBreaker with state := stateOpen, failureCount := 3, lastFailure := 2 * Second }
      (12 * Second)).final = 12 * Second :=
  Execute_open_rejects clockOf failingOp
    { databaseBreaker with state := stateOpen, failureCount := 3, lastFailure := 2 * Second }
    (12 * Second) rfl (by decide)

theorem breakerAfter_threshold_failures {σ : Type} (now : σ → Int)
    (name : String) (n : Int) (resetTimeout : Int)
    (calls : List (Invocation σ)) (last : Invocation σ)
    (hlen : (calls.length : Int) + 1 = n)
    (hfail : ∀ c ∈ calls, (c.fn c.world).1.isNil = false)
    (hlast : (last.fn last.world).1.isNil = false) :
    breakerAfter now (NewCircuitBreaker name n resetTimeout) (calls ++ [last])
      = { NewCircuitBreaker name n resetTimeout with
            failureCount := n, state := stateOpen,
            lastFailure := now (last.fn last.world).2 } := by
  have hall := breakerAfter_failures now calls (NewCircuitBreaker name n resetTimeout) rfl
    hfail (by simp only [NewCircuitBreaker]; omega)
  have hreach := Execute_closed_failure_reach now last.fn
    (breakerAfter now (NewCircuitBreaker name n resetTimeout) calls) last.world
    (by rw [hall.1]; rfl) hlast
    (by rw [hall.1]; simp only [NewCircuitBreaker]; omega)
  rw [breakerAfter_append, hreach, hall.1]
  simp only [NewCircuitBreaker, CircuitBreaker.mk.injEq, true_and, and_true]
  omega

/-- C8 (as stated, refuted): the breaker of `examples/errors-basic`
(`failureThreshold = 3`, `resetTimeout = 10s`) is opened by three failures, the
last of which returned at 2.001s; an `Execute` call made exactly `resetTimeout`
later, at 12.001s, does not invoke the operation: it is rejected with
`CodeServiceUnavailable` and the breaker stays Open. -/
theorem Execute_rejects_at_exactly_resetTimeout :
    (breakerAfter clockOf databaseBreaker
      [⟨failingOp, 0⟩, ⟨failingOp, Second⟩, ⟨failingOp, 2 * Second⟩]).state = stateOpen ∧
    (12 * Second + Millisecond) -
      (breakerAfter clockOf databaseBreaker
        [⟨failingOp, 0⟩, ⟨failingOp, Second⟩, ⟨failingOp, 2 * Second⟩]).lastFailure
      = databaseBreaker.resetTimeout ∧
    (Execute clockOf succeedingOp
      (breakerAfter clockOf databaseBreaker
        [⟨failingOp, 0⟩, ⟨failingOp, Second⟩, ⟨failingOp, 2 * Second⟩])
      (12 * Second + Millisecond)).ran = none ∧
    (Execute clockOf succeedingOp
      (breakerAfter clockOf databaseBreaker
        [⟨failingOp, 0⟩, ⟨failingOp, Second⟩, ⟨failingOp, 2 * Second⟩])
      (12 * Second + Millisecond)).err.code? = some CodeServiceUnavailable ∧
    (Execute clockOf succeedingOp
      (breakerAfter clockOf databaseBreaker
        [⟨failingOp, 0⟩, ⟨failingOp, Second⟩, ⟨failingOp, 2 * Second⟩])
      (12 * Second + Millisecond)).cb.state = stateOpen := by
  decide


/-- C8 (amended): for a breaker opened by `failureThreshold` consecutive
failures, the next `Execute` call made when strictly more than `resetTimeout`
has elapsed since `lastFailure` invokes the operation as a HalfOpen probe
(state HalfOpen, `halfOpenAttempts = 0`), and if that probe succeeds the
breaker is Closed with `failureCount = 0` afterwards. -/
theorem Execute_probe_success_closes {σ : Type} (now : σ → Int)
    (name : String) (n : Int) (resetTimeout : Int)
    (calls : List (Invocation σ)) (last : Invocation σ)
    (fn : σ → GoError × σ) (s : σ)
    (hlen : (calls.length : Int) + 1 = n)
    (hfail : ∀ c ∈ calls, (c.fn c.world).1.isNil = false)
    (hlast : (last.fn last.world).1.isNil = false)
    (helapsed : now s - now (last.fn last.world).2 > resetTimeout)
    (hok : (fn s).1.isNil = true) :
    (breakerAfter now (NewCircuitBreaker name n resetTimeout) (calls ++ [last])).state
      = stateOpen ∧
    (Execute now fn
      (breakerAfter now (NewCircuitBreaker name n resetTimeout) (calls ++ [last])) s).ran
      = some { breakerAfter now (NewCircuitBreaker name n resetTimeout) (calls ++ [last]) with
                 state := stateHalfOpen, halfOpenAttempts := 0 } ∧
    (Execute now fn
      (breakerAfter now (NewCircuitBreaker name n resetTimeout) (calls ++ [last])) s).err
      = (fn s).1 ∧
    (Execute now fn
      (breakerAfter now (NewCircuitBreaker name n resetTimeout) (calls ++ [last])) s).cb.state
      = stateClosed ∧
    (Execute now fn
      (breakerAfter now (NewCircuitBreaker name n resetTimeout) (calls ++ [last])) s
      ).cb.failureCount = 0 := by
  rw [breakerAfter_threshold_failures now name n resetTimeout calls last hlen hfail hlast]
  simp [Execute, executeFn, updateState, NewCircuitBreaker, helapsed, hok]

theorem Execute_probe_success_closes_witness :
    (breakerAfter clockOf (NewCircuitBreaker "database" 3 (10 * Second))
      ([(⟨failingOp, 0⟩ : Invocation Int), ⟨failingOp, Second⟩]
        ++ [⟨failingOp, 2 * Second⟩])).state = stateOpen ∧
    (Execute clockOf succeedingOp
      (breakerAfter clockOf (NewCircuitBreaker "database" 3 (10 * Second))
        ([(⟨failingOp, 0⟩ : Invocation Int), ⟨failingOp, Second⟩]
          ++ [⟨failingOp, 2 * Second⟩])) (13 * Second)).ran
      = some { breakerAfter clockOf (NewCircuitBreaker "database" 3 (10 * Second))
                ([(⟨failingOp, 0⟩ : Invocation Int), ⟨failingOp, Second⟩]
                  ++ [⟨failingOp, 2 * Second⟩]) with
                 state := stateHalfOpen, halfOpenAttempts := 0 } ∧
    (Execute clockOf succeedingOp
      (breakerAfter clockOf (NewCircuitBreaker "database" 3 (10 * Second))
        ([(⟨failingOp, 0⟩ : Invocation Int), ⟨failingOp, Second⟩]
          ++ [⟨failingOp, 2 * Second⟩])) (13 * Second)).err
      = (succeedingOp (13 * Second)).1 ∧
    (Execute clockOf succeedingOp
      (breakerAfter clockOf (NewCircuitBreaker "database" 3 (10 * Second))
        ([(⟨failingOp, 0⟩ : Invocation Int), ⟨failingOp, Second⟩]
          ++ [⟨failingOp, 2 * Second⟩])) (13 * Second)).cb.state = stateClosed ∧
    (Execute clockOf succeedingOp
      (breakerAfter clockOf (NewCircuitBreaker "database" 3 (10 * Second))
        ([(⟨failingOp, 0⟩ : Invocation Int), ⟨failingOp, Second⟩]
          ++ [⟨failingOp, 2 * Second⟩])) (13 * Second)).cb.failureCount = 0 :=
  Execute_probe_success_closes clockOf "database" 3 (10 * Second)
    [⟨failingOp, 0⟩, ⟨failingOp, Second⟩] ⟨failingOp, 2 * Second⟩
    succeedingOp (13 * Second)
    (by decide) (by intro c hc; simp at hc; rcases hc with rfl | rfl <;> rfl)
    rfl (by decide) rfl

/-- C9: for every `Execute` call that runs the operation as a HalfOpen probe
(the breaker is HalfOpen when `fn()` is entered) and whose operation fails,
when `Execute` returns the breaker is Open, `lastFailure` is the clock reading
when the failed operation returned, `failureCount` equals `failureThreshold`,
and the failure is returned as it is. -/
theorem Execute_probe_failure_reopens {σ : Type} (now : σ → Int) (fn : σ → GoError × σ)
    (cb : CircuitBreaker) (s : σ) (probe : CircuitBreaker)
    (hran : (Execute now fn cb s).ran = some probe)
    (hprobe : probe.state = stateHalfOpen)
    (hfail : (fn s).1.isNil = false) :
    (Execute now fn cb s).cb.state = stateOpen ∧
    (Execute now fn cb s).cb.lastFailure = now (fn s).2 ∧
    (Execute now fn cb s).cb.failureCount = cb.failureThreshold ∧
    (Execute now fn cb s).err = (fn s).1 := by
  cases hst : cb.state with
  | stateClosed =>
    simp only [Execute, hst, executeFn, Option.some.injEq] at hran
    rw [← hran, hst] at hprobe
    exact absurd hprobe (by decide)
  | stateOpen =>
    by_cases hel : now s - cb.lastFailure > cb.resetTimeout
    · simp [Execute, hst, hel, executeFn, updateState, hfail]
    · simp [Execute, hst, hel] at hran
  | stateHalfOpen =>
    by_cases hex : cb.halfOpenAttempts ≥ cb.halfOpenMaxAttempts
    · simp [Execute, hst, hex] at hran
    · simp [Execute, hst, hex, executeFn, updateState, hfail]

theorem Execute_probe_failure_reopens_witness :
    (Execute clockOf failingOp
      { databaseBreaker with state := stateOpen, failureCount := 3, lastFailure := 2 * Second }
      (13 * Second)).cb.state = stateOpen ∧
    (Execute clockOf failingOp
      { databaseBreaker with state := stateOpen, failureCount := 3, lastFailure := 2 * Second }
      (13 * Second)).cb.lastFailure = clockOf (failingOp (13 * Second)).2 ∧
    (Execute clockOf failingOp
      { databaseBreaker with state := stateOpen, failureCount := 3, lastFailure := 2 * Second }
      (13 * Second)).cb.failureCount
      = ({ databaseBreaker with state := stateOpen, failureCount := 3,
                                lastFailure := 2 * Second } : CircuitBreaker).failureThreshold ∧
    (Execute clockOf failingOp
      { databaseBreaker with state := stateOpen, failureCount := 3, lastFailure := 2 * Second }
      (13 * Second)).err = (failingOp (13 * Second)).1 :=
  Execute_probe_failure_reopens clockOf failingOp
    { databaseBreaker with state := stateOpen, failureCount := 3, lastFailure := 2 * Second }
    (13 * Second)
    { databaseBreaker with state := stateHalfOpen, failureCount := 3,
                           lastFailure := 2 * Second, halfOpenAttempts := 0 }
    (by decide) rfl rfl

/-! ## Properties of the error values -/

/-- C10: for every `*Error` `e` (code `c`) and all codes `A`, `B` and messages
`m1`, `m2`, the error `Wrap(Wrap(e, A, m1), B, m2)` has outermost code `B` (its
`Code` field, which is also what `As` extracts), and `Is` finds both `A` and
`c` in it. -/
theorem Wrap_Wrap_codes (c : ErrorCode) (m : String) (cause : GoError) (md : Metadata)
    (ts now1 now2 : Int) (A B : ErrorCode) (m1 m2 : String) :
    (Wrap now2 (Wrap now1 (app c m cause md ts) A m1) B m2).code? = some B ∧
    As (Wrap now2 (Wrap now1 (app c m cause md ts) A m1) B m2) = some B ∧
    Is (Wrap now2 (Wrap now1 (app c m cause md ts) A m1) B m2) [A] = true ∧
    Is (Wrap now2 (Wrap now1 (app c m cause md ts) A m1) B m2) [c] = true := by
  simp [Wrap, newError, GoError.code?, As, Is]

/-- C11: for every non-nil failure `f`, code `c` and message `m`, `Wrap(f, c, m)`
is an `*Error` with `Code = c`, `Message = m`, `Cause = f` and no metadata; its
cause chain is the new link followed by the cause chain of `f`, and its
`Cause` still holds `f` with the code, message, cause and metadata `f` had. When
`f` is a foreign failure the chain is the new link and then `f`, which ends it. -/
theorem Wrap_adds_one_outer_link (now : Int) (f : GoError) (c : ErrorCode) (m : String)
    (hf : f.isNil = false) :
    Wrap now f c m = app c m f none now ∧
    (Wrap now f c m).code? = some c ∧
    (Wrap now f c m).message? = some m ∧
    (Wrap now f c m).cause? = some f ∧
    causeChain (Wrap now f c m) = Wrap now f c m :: causeChain f ∧
    (causeChain (Wrap now f c m)).length = (causeChain f).length + 1 ∧
    (∀ msg u, causeChain (Wrap now (foreign msg u) c m)
      = [Wrap now (foreign msg u) c m, foreign msg u]) := by
  have hw := Wrap_of_not_isNil now f c m hf
  rw [hw]
  exact ⟨rfl, rfl, rfl, rfl, rfl, rfl, fun _ _ => rfl⟩

theorem Wrap_adds_one_outer_link_witness :
    Wrap 7 networkFailure CodeInternalError "lookup failed"
      = app CodeInternalError "lookup failed" networkFailure none 7 ∧
    (Wrap 7 networkFailure CodeInternalError "lookup failed").code? = some CodeInternalError ∧
    (Wrap 7 networkFailure CodeInternalError "lookup failed").message? = some "lookup failed" ∧
    (Wrap 7 networkFailure CodeInternalError "lookup failed").cause? = some networkFailure ∧
    causeChain (Wrap 7 networkFailure CodeInternalError "lookup failed")
      = Wrap 7 networkFailure CodeInternalError "lookup failed" :: causeChain networkFailure ∧
    (causeChain (Wrap 7 networkFailure CodeInternalError "lookup failed")).length
      = (causeChain networkFailure).length + 1 ∧
    (∀ msg u, causeChain (Wrap 7 (foreign msg u) CodeInternalError "lookup failed")
      = [Wrap 7 (foreign msg u) CodeInternalError "lookup failed", foreign msg u]) :=
  Wrap_adds_one_outer_link 7 networkFailure CodeInternalError "lookup failed" rfl

theorem Is_empty_codes : ∀ e : GoError, Is e [] = false := by
  intro e
  induction e with
  | nil => rfl
  | app c m cause md ts ih => simp [Is, ih]
  | foreign msg u ih => simp [Is, ih]

theorem Is_iff_exists_causeChain (codes : List ErrorCode) :
    ∀ e : GoError, leafTerminated e = true →
      (Is e codes = true ↔ ∃ l ∈ causeChain e, ∃ c ∈ codes, l.code? = some c) := by
  intro e
  induction e with
  | nil => intro _; simp [Is, causeChain]
  | foreign msg u _ =>
    intro h
    have hu : u = nil := by
      cases u with
      | nil => rfl
      | app _ _ _ _ _ => simp [leafTerminated, GoError.isNil] at h
      | foreign _ _ => simp [leafTerminated, GoError.isNil] at h
    subst hu
    simp [Is, causeChain, GoError.code?]
  | app c m cause md ts ih =>
    intro h
    have ih1 := ih (by simpa [leafTerminated] using h)
    by_cases hc : c ∈ codes
    · have hany : codes.any (fun code => c == code) = true := by
        rw [List.any_eq_true]
        exact ⟨c, hc, by simp⟩
      simp only [Is, hany, if_true, true_iff]
      exact ⟨_, List.mem_cons_self _ _, c, hc, rfl⟩
    · have hany : codes.any (fun code => c == code) = false := by
        rw [Bool.eq_false_iff]
        intro hh
        rw [List.any_eq_true] at hh
        obtain ⟨x, hx, hxe⟩ := hh
        have : c = x := by simpa using hxe
        exact hc (this ▸ hx)
      simp only [Is, hany, Bool.false_eq_true, if_false, causeChain, List.mem_cons]
      rw [ih1]
      constructor
      · rintro ⟨l, hl, hcode⟩
        exact ⟨l, Or.inr hl, hcode⟩
      · rintro ⟨l, hl | hl, c2, hc2, hcode⟩
        · subst hl
          simp only [GoError.code?, Option.some.injEq] at hcode
          exact absurd (hcode ▸ hc2) hc
        · exact ⟨l, hl, c2, hc2, hcode⟩

/-- C12: for every error `e` whose cause chain consists of `*Error` links and
ends in nothing or in a foreign failure that wraps nothing, and every list of
codes, `Is(e, codes...)` is true exactly when some link of the cause chain of
`e`, outermost included, is an `*Error` whose code is in the list; with an
empty list, and on the nil error, `Is` is false. -/
theorem Is_walks_cause_chain (e : GoError) (codes : List ErrorCode)
    (h : leafTerminated e = true) :
    (Is e codes = true ↔ ∃ l ∈ causeChain e, ∃ c ∈ codes, l.code? = some c) ∧
    Is e [] = false ∧
    Is nil codes = false :=
  ⟨Is_iff_exists_causeChain codes e h, Is_empty_codes e, rfl⟩

theorem Is_walks_cause_chain_witness :
    (Is (Wrap 7 networkFailure CodeInternalError "lookup failed")
        [CodeNotFound, CodeNetworkError] = true ↔
      ∃ l ∈ causeChain (Wrap 7 networkFailure CodeInternalError "lookup failed"),
        ∃ c ∈ [CodeNotFound, CodeNetworkError], l.code? = some c) ∧
    Is (Wrap 7 networkFailure CodeInternalError "lookup failed") [] = false ∧
    Is nil [CodeNotFound, CodeNetworkError] = false :=
  Is_walks_cause_chain (Wrap 7 networkFailure CodeInternalError "lookup failed")
    [CodeNotFound, CodeNetworkError] (by decide)

/-- C13 (the code at the failing input): the error of `examples/errors-basic`,
`Wrap(fmt.Errorf("connection refused"), CodeNetworkError, "failed to connect to
database")`, renders with the text ` (caused by: %!v(MISSING))` after the
rendering of its cause, not as `<code> [<message>]: <cause rendering>` alone;
an error without cause renders as `<code>: <message>`. -/
theorem Error_render_with_cause_has_trailing_text :
    GoError.Error (Wrap 0 (foreign "connection refused" nil) CodeNetworkError
        "failed to connect to database")
      = "NETWORK_ERROR [failed to connect to database]: connection refused"
          ++ " (caused by: %!v(MISSING))" ∧
    GoError.Error (Wrap 0 (foreign "connection refused" nil) CodeNetworkError
        "failed to connect to database")
      ≠ "NETWORK_ERROR [failed to connect to database]: connection refused" ∧
    GoError.Error (New 0 CodeNotFound "user not found") = "NOT_FOUND: user not found" := by
  decide

theorem ToError_code_eq_classifySpec (now : Int) (msg : String) (u : GoError) :
    ToError now (foreign msg u) = app (classifySpec msg) msg (foreign msg u) none now := by
  simp only [ToError, classifySpec, classifyRules, GoError.Error, Wrap, newError, List.find?]
  split_ifs <;> simp_all

/-- C14: for every foreign failure with message `m`, `ToError` wraps it in an
`*Error` with message `m` whose code is the code of the first rule, in the order
"not found", "already exists", "permission denied", "unauthorized", "invalid",
"timeout", whose substring occurs in `m`, and `CodeInternalError` when none
occurs; a message containing the substrings of two rules gets the code of the
earlier one. -/
theorem ToError_first_matching_rule (now : Int) (msg : String) (u : GoError) :
    ToError now (foreign msg u) = app (classifySpec msg) msg (foreign msg u) none now ∧
    (ToError now (foreign msg u)).code? = some (classifySpec msg) ∧
    ((∀ rule ∈ classifyRules, stringsContains msg rule.1 = false) →
      (ToError now (foreign msg u)).code? = some CodeInternalError) ∧
    (ToError 0 (foreign "temporary failure" nil)).code? = some CodeInternalError ∧
    (ToError 0 (foreign "invalid token: user not found" nil)).code? = some CodeNotFound ∧
    (ToError 0 (foreign "timeout: permission denied" nil)).code?
      = some CodePermissionDenied := by
  have h := ToError_code_eq_classifySpec now msg u
  refine ⟨h, by rw [h]; rfl, ?_, ?_, ?_, ?_⟩
  · intro hnone
    rw [h]
    have hfind : classifyRules.find? (fun rule => stringsContains msg rule.1) = none := by
      rw [List.find?_eq_none]
      intro rule hr
      simp [hnone rule hr]
    simp [classifySpec, hfind, GoError.code?]
  · rw [ToError_code_eq_classifySpec]; decide
  · rw [ToError_code_eq_classifySpec]; decide
  · rw [ToError_code_eq_classifySpec]; decide

theorem infix_of_infix_sep {p u v : List Char} {c : Char} (hc : c ∉ p) :
    p <:+: u ++ c :: v → p <:+: u ∨ p <:+: v := by
  induction u with
  | nil =>
    intro h
    rw [List.nil_append, List.infix_cons_iff] at h
    rcases h with h | h
    · cases p with
      | nil => exact Or.inl List.nil_infix
      | cons x xs =>
        have hx : x = c := (List.cons_prefix_cons.mp h).1
        exact absurd (hx ▸ List.mem_cons_self x xs) hc
    · exact Or.inr h
  | cons a u ih =>
    intro h
    rw [List.cons_append, List.infix_cons_iff] at h
    rcases h with h | h
    · by_cases hlen : p.length ≤ (a :: u).length
      · have hpre : (a :: u) <+: a :: (u ++ c :: v) := by
          rw [← List.cons_append]; exact List.prefix_append _ _
        exact Or.inl (List.prefix_of_prefix_length_le h hpre hlen).isInfix
      · have hpre : (a :: u) ++ [c] <+: a :: (u ++ c :: v) := by
          have : a :: (u ++ c :: v) = ((a :: u) ++ [c]) ++ v := by simp
          rw [this]; exact List.prefix_append _ _
        have hsub := List.prefix_of_prefix_length_le hpre h (by simp at hlen ⊢; omega)
        have hmem : c ∈ p := hsub.subset (by simp)
        exact absurd hmem hc
    · rcases ih h with h1 | h1
      · exact Or.inl (List.infix_cons h1)
      · exact Or.inr h1

theorem infix_of_infix_cons {p l : List Char} {c : Char} (hh : p.head? ≠ some c) :
    p <:+: c :: l → p <:+: l := by
  intro h
  rw [List.infix_cons_iff] at h
  rcases h with h | h
  · cases p with
    | nil => exact List.nil_infix
    | cons x xs =>
      have hx : x = c := (List.cons_prefix_cons.mp h).1
      exact absurd (by simp [hx]) hh
  · exact h

theorem infix_of_infix_concat {p l : List Char} {c : Char} (hl : p.getLast? ≠ some c) :
    p <:+: l ++ [c] → p <:+: l := by
  intro h
  have h1 : p.reverse <:+: c :: l.reverse := by
    have := List.reverse_infix.mpr h
    simpa using this
  have h2 : p.reverse <:+: l.reverse :=
    infix_of_infix_cons (by simpa [List.head?_reverse] using hl) h1
  exact List.reverse_infix.mp h2

theorem infix_render_iff {p X m Z : List Char}
    (h1 : '[' ∉ p) (h2 : ']' ∉ p) (h3 : ':' ∉ p) (h4 : '(' ∉ p)
    (hX : ¬ p <:+: X ++ [' ']) (hZ : ¬ p <:+: Z)
    (hs : p.head? ≠ some ' ') (he : p.getLast? ≠ some ' ') (hne : p ≠ []) :
    p <:+: (X ++ [' ']) ++ '[' :: (m ++ ']' :: ([] ++ ':' :: ((' ' :: (m ++ [' '])) ++ '(' :: Z)))
      ↔ p <:+: m := by
  constructor
  · intro h
    rcases infix_of_infix_sep h1 h with h | h
    · exact absurd h hX
    rcases infix_of_infix_sep h2 h with h | h
    · exact h
    rcases infix_of_infix_sep h3 h with h | h
    · exact absurd (List.eq_nil_of_infix_nil h) hne
    rcases infix_of_infix_sep h4 h with h | h
    · exact infix_of_infix_concat he (infix_of_infix_cons hs h)
    · exact absurd h hZ
  · intro h
    refine h.trans ?_
    exact ⟨(X ++ [' ']) ++ ['['],
      ']' :: ([] ++ ':' :: ((' ' :: (m ++ [' '])) ++ '(' :: Z)), by simp⟩

theorem stringsContains_render (code m p : String)
    (h1 : '[' ∉ p.data) (h2 : ']' ∉ p.data) (h3 : ':' ∉ p.data) (h4 : '(' ∉ p.data)
    (hX : ¬ p.data <:+: code.data ++ [' '])
    (hZ : ¬ p.data <:+: "caused by: %!v(MISSING))".data)
    (hs : p.data.head? ≠ some ' ') (he : p.data.getLast? ≠ some ' ') (hne : p.data ≠ []) :
    stringsContains (code ++ " [" ++ m ++ "]: " ++ m ++ " (caused by: %!v(MISSING))") p
      = stringsContains m p := by
  have key := infix_render_iff (X := code.data) (m := m.data) h1 h2 h3 h4 hX hZ hs he hne
  have e1 : " [".data = [' ', '['] := rfl
  have e2 : "]: ".data = [']', ':', ' '] := rfl
  have e3 : " (caused by: %!v(MISSING))".data = ' ' :: '(' :: "caused by: %!v(MISSING))".data :=
    rfl
  unfold stringsContains
  rw [decide_eq_decide, ← key]
  simp only [String.data_append, e1, e2, e3, List.append_assoc, List.cons_append,
    List.nil_append, List.singleton_append]

theorem find?_congr_of_mem {α : Type} (f g : α → Bool) :
    ∀ l : List α, (∀ x ∈ l, f x = g x) → l.find? f = l.find? g := by
  intro l
  induction l with
  | nil => intro _; rfl
  | cons x xs ih =>
    intro h
    have hx := h x (List.mem_cons_self _ _)
    have hxs := ih (fun y hy => h y (List.mem_cons_of_mem _ hy))
    simp only [List.find?, hx, hxs]

theorem classifySpec_mem (msg : String) :
    classifySpec msg ∈ classifyRules.map Prod.snd ++ [CodeInternalError] := by
  unfold classifySpec
  cases hfind : classifyRules.find? (fun rule => stringsContains msg rule.1) with
  | none => simp
  | some rule =>
    have hmem : rule ∈ classifyRules := List.mem_of_find?_eq_some hfind
    exact List.mem_append_left _ (List.mem_map_of_mem Prod.snd hmem)

theorem classifySpec_render (msg : String) :
    classifySpec (classifySpec msg ++ " [" ++ msg ++ "]: " ++ msg
        ++ " (caused by: %!v(MISSING))")
      = classifySpec msg := by
  have hside : ∀ rule ∈ classifyRules,
      '[' ∉ rule.1.data ∧ ']' ∉ rule.1.data ∧ ':' ∉ rule.1.data ∧ '(' ∉ rule.1.data ∧
      ¬ rule.1.data <:+: "caused by: %!v(MISSING))".data ∧
      rule.1.data.head? ≠ some ' ' ∧ rule.1.data.getLast? ≠ some ' ' ∧ rule.1.data ≠ [] := by
    decide
  have hcodes : ∀ rule ∈ classifyRules,
      ∀ code ∈ classifyRules.map Prod.snd ++ [CodeInternalError],
        ¬ rule.1.data <:+: code.data ++ [' '] := by
    decide
  have hfind := find?_congr_of_mem
    (fun rule : String × ErrorCode =>
      stringsContains (classifySpec msg ++ " [" ++ msg ++ "]: " ++ msg
        ++ " (caused by: %!v(MISSING))") rule.1)
    (fun rule : String × ErrorCode => stringsContains msg rule.1)
    classifyRules
    (fun rule hr => by
      obtain ⟨h1, h2, h3, h4, hZ, hs, he, hne⟩ := hside rule hr
      exact stringsContains_render (classifySpec msg) msg rule.1 h1 h2 h3 h4
        (hcodes rule hr _ (classifySpec_mem msg)) hZ hs he hne)
  unfold classifySpec at hfind ⊢
  rw [hfind]

/-- C15: for every foreign failure `f` with message `m`, `e = ToError(f)` is
an `*Error` whose code is the code `classify` gives `m`, and classifying a
foreign failure whose message is `e.Error()` yields an `*Error` with that same
code: the code is produced on both sides and it is `e.Code`. -/
theorem ToError_render_roundtrip (now now2 : Int) (msg : String) (u u2 : GoError) :
    (ToError now (foreign msg u)).code? = some (classifySpec msg) ∧
    (ToError now2 (foreign (GoError.Error (ToError now (foreign msg u))) u2)).code?
      = some (classifySpec msg) ∧
    (∃ c, (ToError now (foreign msg u)).code? = some c ∧
      (ToError now2 (foreign (GoError.Error (ToError now (foreign msg u))) u2)).code?
        = some c) ∧
    (ToError now2 (foreign (GoError.Error (ToError now (foreign msg u))) u2)).code?
      = (ToError now (foreign msg u)).code? := by
  have hfirst : (ToError now (foreign msg u)).code? = some (classifySpec msg) := by
    rw [ToError_code_eq_classifySpec now msg u]; rfl
  have hsecond :
      (ToError now2 (foreign (GoError.Error (ToError now (foreign msg u))) u2)).code?
        = some (classifySpec msg) := by
    rw [ToError_code_eq_classifySpec now msg u, ToError_code_eq_classifySpec now2]
    have hrender : GoError.Error (app (classifySpec msg) msg (foreign msg u) none now)
        = classifySpec msg ++ " [" ++ msg ++ "]: " ++ msg ++ " (caused by: %!v(MISSING))" := by
      simp [GoError.Error, GoError.isNil]
    rw [hrender]
    simp only [GoError.code?, Option.some.injEq]
    exact classifySpec_render msg
  exact ⟨hfirst, hsecond, ⟨classifySpec msg, hfirst, hsecond⟩, by rw [hfirst, hsecond]⟩

theorem mapGet_mapSet_same (m : List (String × String)) (key value : String) :
    mapGet (mapSet m key value) key = some value := by
  simp [mapGet, mapSet, List.find?]

theorem mapGet_filter_ne (key other : String) (hne : other ≠ key) :
    ∀ m : List (String × String),
      mapGet (m.filter (fun kv => !(kv.1 == key))) other = mapGet m other := by
  intro m
  induction m with
  | nil => rfl
  | cons x xs ih =>
    unfold mapGet at ih ⊢
    by_cases hx : x.1 = key
    · have hxo : ¬ x.1 = other := fun h => hne (h ▸ hx)
      simp only [List.filter, hx, beq_self_eq_true, Bool.not_true, List.find?]
      rw [ih]
      have : (x.1 == other) = false := by simpa using hxo
      rw [hx] at this
      simp [this]
    · have hk : (x.1 == key) = false := by simpa using hx
      simp only [List.filter, hk, Bool.not_false, List.find?]
      cases hxo : (x.1 == other) with
      | true => rfl
      | false => exact ih

theorem mapGet_mapSet_other (m : List (String × String)) (key value other : String)
    (hne : other ≠ key) : mapGet (mapSet m key value) other = mapGet m other := by
  have hk : (key == other) = false := by
    simpa using fun h : key = other => hne h.symm
  have := mapGet_filter_ne key other hne m
  unfold mapGet at this ⊢
  simp only [mapSet, List.find?, hk]
  exact this

/-- C16: for every `*Error` `e`, key `k` and value `v`, `AddMetadata(e, k, v)`
returns the error with the same `Code`, `Message`, `Cause` and `Timestamp`, on
which `GetMetadata(k)` is `(v, true)` whether or not `k` was present before,
every other key reads as it did on `e`, and every key present on `e` is still
present. -/
theorem AddMetadata_sets_key (now : Int) (c : ErrorCode) (m : String) (cause : GoError)
    (md : Metadata) (ts : Int) (k v : String) :
    (∃ md2, AddMetadata now (app c m cause md ts) k v = app c m cause (some md2) ts) ∧
    (AddMetadata now (app c m cause md ts) k v).code? = some c ∧
    (AddMetadata now (app c m cause md ts) k v).message? = some m ∧
    (AddMetadata now (app c m cause md ts) k v).cause? = some cause ∧
    (AddMetadata now (app c m cause md ts) k v).GetMetadata k = some v ∧
    (∀ other, other ≠ k →
      (AddMetadata now (app c m cause md ts) k v).GetMetadata other
        = (app c m cause md ts).GetMetadata other) ∧
    (∀ key, ((app c m cause md ts).GetMetadata key).isSome = true →
      ((AddMetadata now (app c m cause md ts) k v).GetMetadata key).isSome = true) := by
  have hother : ∀ other, other ≠ k →
      (AddMetadata now (app c m cause md ts) k v).GetMetadata other
        = (app c m cause md ts).GetMetadata other := by
    intro other hne
    cases md with
    | none =>
      simp only [AddMetadata, WithMetadata, List.foldl, GoError.GetMetadata]
      rw [mapGet_mapSet_other _ _ _ _ hne]
      rfl
    | some entries =>
      simp only [AddMetadata, WithMetadata, List.foldl, GoError.GetMetadata]
      exact mapGet_mapSet_other _ _ _ _ hne
  have hsame : (AddMetadata now (app c m cause md ts) k v).GetMetadata k = some v := by
    cases md <;>
      simp only [AddMetadata, WithMetadata, List.foldl, GoError.GetMetadata] <;>
      exact mapGet_mapSet_same _ _ _
  refine ⟨⟨_, rfl⟩, rfl, rfl, rfl, hsame, hother, ?_⟩
  intro key hkey
  by_cases hk : key = k
  · rw [hk, hsame]; rfl
  · rw [hother key hk]; exact hkey

/-! ## Properties of the status classes -/

theorem HTTPStatus_cases (c : ErrorCode) :
    ErrorCode.HTTPStatus c = 400 ∨ ErrorCode.HTTPStatus c = 401 ∨
    ErrorCode.HTTPStatus c = 403 ∨ ErrorCode.HTTPStatus c = 404 ∨
    ErrorCode.HTTPStatus c = 409 ∨ ErrorCode.HTTPStatus c = 500 ∨
    ErrorCode.HTTPStatus c = 503 := by
  unfold ErrorCode.HTTPStatus
  split_ifs <;> simp

/-- C17: for every `ErrorCode` value `c`, any string, `HTTPStatus(c)` depends
on `c` alone and is one of 400, 401, 403, 404, 409, 500, 503; the fourteen named
codes have the statuses of the `switch`, and any other string has 500. -/
theorem HTTPStatus_in_status_classes (c : ErrorCode) :
    ErrorCode.HTTPStatus c ∈ ([400, 401, 403, 404, 409, 500, 503] : List Int) ∧
    ([CodeInvalidArgument, CodeValidation, CodeUnauthorized, CodePermissionDenied,
      CodeNotFound, CodeAlreadyExists, CodeServiceExists, CodeInternalError,
      CodeServiceUnavailable, CodeNetworkError, CodeTimeout, CodeConnectionLost,
      CodeServiceNotFound, CodeConfigError].map ErrorCode.HTTPStatus
      = [400, 400, 401, 403, 404, 409, 409, 500, 500, 503, 503, 503, 500, 500]) ∧
    (c ∉ [CodeInvalidArgument, CodeValidation, CodeUnauthorized, CodePermissionDenied,
          CodeNotFound, CodeAlreadyExists, CodeServiceExists, CodeNetworkError,
          CodeTimeout, CodeConnectionLost] → ErrorCode.HTTPStatus c = 500) := by
  refine ⟨?_, by decide, ?_⟩
  · have h := HTTPStatus_cases c
    simp only [List.mem_cons, List.mem_singleton, List.not_mem_nil, or_false]
    exact h
  · intro hc
    simp only [List.mem_cons, List.mem_singleton, List.not_mem_nil, or_false, not_or] at hc
    obtain ⟨h1, h2, h3, h4, h5, h6, h7, h8, h9, h10⟩ := hc
    unfold ErrorCode.HTTPStatus
    simp [h1, h2, h3, h4, h5, h6, h7, h8, h9, h10]

/-- C18: for every `ErrorCode` `c`, `IsClientError(c)` holds iff
`400 ≤ HTTPStatus(c) < 500` and `IsServerError(c)` holds iff
`500 ≤ HTTPStatus(c) < 600`, and exactly one of the two holds; the `HTTPStatus`,
`IsClientError` and `IsServerError` of an `*Error` are those of its own `Code`,
whatever its cause. -/
theorem status_class_client_xor_server (c : ErrorCode) (m : String) (cause : GoError)
    (md : Metadata) (ts : Int) :
    (ErrorCode.IsClientError c = true ↔
      400 ≤ ErrorCode.HTTPStatus c ∧ ErrorCode.HTTPStatus c < 500) ∧
    (ErrorCode.IsServerError c = true ↔
      500 ≤ ErrorCode.HTTPStatus c ∧ ErrorCode.HTTPStatus c < 600) ∧
    (ErrorCode.IsClientError c = !ErrorCode.IsServerError c) ∧
    (app c m cause md ts).HTTPStatus = some (ErrorCode.HTTPStatus c) ∧
    (app c m cause md ts).IsClientError = some (ErrorCode.IsClientError c) ∧
    (app c m cause md ts).IsServerError = some (ErrorCode.IsServerError c) := by
  refine ⟨?_, ?_, ?_, rfl, rfl, rfl⟩
  · simp [ErrorCode.IsClientError]
  · simp [ErrorCode.IsServerError]
  · have h := HTTPStatus_cases c
    unfold ErrorCode.IsClientError ErrorCode.IsServerError
    rcases h with h | h | h | h | h | h | h <;> rw [h] <;> decide

/-! ## Further properties of `Retry` -/

/-- C19 (as stated, refuted): with the context cancelled, `Retry` invokes the
operation once and returns the `CodeTimeout` error whose message is
"context cancelled during retry"; the attempt count, 1, does not occur in it. -/
theorem Retry_timeout_message_without_count :
    (Retry (scriptedEnv networkFailure 7 true) DefaultRetryConfig 0).err.code?
      = some CodeTimeout ∧
    (Retry (scriptedEnv networkFailure 7 true) DefaultRetryConfig 0).err.message?
      = some "context cancelled during retry" ∧
    (Retry (scriptedEnv networkFailure 7 true) DefaultRetryConfig 0).calls.length = 1 ∧
    stringsContains "context cancelled during retry" (toString 1) = false := by
  refine ⟨?_, ?_, ?_, by decide⟩ <;>
  simp [Retry, retryLoop, scriptedEnv, networkFailure, DefaultRetryConfig,
    isRetryableError, GoError.isNil, Wrap, newError, CodeNetworkError, CodeTimeout,
    CodeConnectionLost, CodeServiceUnavailable, GoError.code?, GoError.message?]

theorem retryLoop_error_message {σ : Type} (env : RetryEnv σ) (config : RetryConfig) :
    ∀ (n attempt : Nat) (lastErr : GoError) (s : σ),
      (config.MaxAttempts - attempt).toNat = n → 0 < n →
      (retryLoop env config attempt lastErr s).err = nil ∨
      ((retryLoop env config attempt lastErr s).err.code? = some CodeInternalError ∧
        (retryLoop env config attempt lastErr s).err.message?
          = some ("non-retryable error after "
              ++ toString (attempt + (retryLoop env config attempt lastErr s).calls.length)
              ++ " attempts")) ∨
      ((retryLoop env config attempt lastErr s).err.code? = some CodeInternalError ∧
        (retryLoop env config attempt lastErr s).err.message?
          = some ("failed after " ++ toString config.MaxAttempts ++ " attempts") ∧
        ((attempt + (retryLoop env config attempt lastErr s).calls.length : Nat) : Int)
          = config.MaxAttempts) ∨
      ((retryLoop env config attempt lastErr s).err.code? = some CodeTimeout ∧
        ((retryLoop env config attempt lastErr s).err.message?
            = some "context cancelled during retry" ∨
         (retryLoop env config attempt lastErr s).err.message?
            = some "context cancelled during retry delay")) := by
  intro n
  induction n with
  | zero => intro _ _ _ _ h; exact absurd h (Nat.lt_irrefl 0)
  | succ n ih =>
    intro attempt lastErr s hn _
    have h1 : (attempt : Int) < config.MaxAttempts := by omega
    rw [retryLoop]
    simp only [h1, if_true]
    by_cases hnil : (env.fn s).1.isNil = true
    · left; simp [hnil]
    · have hnil2 : (env.fn s).1.isNil = false := by simpa using hnil
      simp only [hnil2, Bool.false_eq_true, if_false]
      split_ifs with hret hlast hctx hw
      · right; left
        simp only [Wrap_of_not_isNil _ _ _ _ hnil2, List.length_singleton]
        exact ⟨rfl, rfl⟩
      · right; right; left
        simp only [Wrap_of_not_isNil _ _ _ _ hnil2, List.length_singleton]
        refine ⟨rfl, rfl, ?_⟩
        push_cast; omega
      · right; right; right
        simp only [Wrap_of_not_isNil _ _ _ _ hnil2]
        exact ⟨rfl, Or.inl rfl⟩
      · right; right; right
        simp only [Wrap_of_not_isNil _ _ _ _ hnil2]
        exact ⟨rfl, Or.inr rfl⟩
      · have hn2 : (config.MaxAttempts - ((attempt + 1 : Nat) : Int)).toNat = n := by
          push_cast; omega
        have hpos : 0 < n := by omega
        have key := ih (attempt + 1) (env.fn s).1
          (env.wait (env.fn s).2 (calculateDelay config attempt (env.unixNano (env.fn s).2))).2
          hn2 hpos
        have hshift : attempt + ((retryLoop env config (attempt + 1) (env.fn s).1
            (env.wait (env.fn s).2
              (calculateDelay config attempt (env.unixNano (env.fn s).2))).2).calls.length + 1)
            = attempt + 1 + (retryLoop env config (attempt + 1) (env.fn s).1
            (env.wait (env.fn s).2
              (calculateDelay config attempt (env.unixNano (env.fn s).2))).2).calls.length := by
          omega
        simp only [List.length_cons]
        rw [hshift]
        exact key

theorem toString_natCast (k : Nat) : toString ((k : Nat) : Int) = toString k := rfl

/-- C19 (amended): for every configuration with `MaxAttempts ≥ 1` and every run
of `Retry` that returns an error, either the error is coded `CodeInternalError`
and its message is "non-retryable error after N attempts" or
"failed after N attempts" with N the number of times the operation was
invoked, or it is coded `CodeTimeout` and its message is one of the two fixed
texts "context cancelled during retry" and "context cancelled during retry
delay", which carry no count. -/
theorem Retry_error_message_attempt_count {σ : Type} (env : RetryEnv σ)
    (config : RetryConfig) (s : σ) (hmax : 1 ≤ config.MaxAttempts)
    (herr : (Retry env config s).err ≠ nil) :
    ((Retry env config s).err.code? = some CodeInternalError ∧
      ((Retry env config s).err.message?
          = some ("non-retryable error after "
              ++ toString (Retry env config s).calls.length ++ " attempts") ∨
       (Retry env config s).err.message?
          = some ("failed after "
              ++ toString (Retry env config s).calls.length ++ " attempts"))) ∨
    ((Retry env config s).err.code? = some CodeTimeout ∧
      ((Retry env config s).err.message? = some "context cancelled during retry" ∨
       (Retry env config s).err.message? = some "context cancelled during retry delay")) := by
  have key := retryLoop_error_message env config
    (config.MaxAttempts - ((0 : Nat) : Int)).toNat 0 nil s rfl (by omega)
  simp only [Nat.zero_add] at key
  unfold Retry at herr ⊢
  rcases key with h | ⟨hc, hm⟩ | ⟨hc, hm, hlen⟩ | h
  · exact absurd h herr
  · exact Or.inl ⟨hc, Or.inl hm⟩
  · refine Or.inl ⟨hc, Or.inr ?_⟩
    rw [hm, ← hlen, toString_natCast]
  · exact Or.inr h

theorem Retry_error_message_attempt_count_witness :
    ((Retry (scriptedEnv networkFailure 7 false) DefaultRetryConfig 0).err.code?
        = some CodeInternalError ∧
      ((Retry (scriptedEnv networkFailure 7 false) DefaultRetryConfig 0).err.message?
          = some ("non-retryable error after "
              ++ toString (Retry (scriptedEnv networkFailure 7 false)
                    DefaultRetryConfig 0).calls.length ++ " attempts") ∨
       (Retry (scriptedEnv networkFailure 7 false) DefaultRetryConfig 0).err.message?
          = some ("failed after "
              ++ toString (Retry (scriptedEnv networkFailure 7 false)
                    DefaultRetryConfig 0).calls.length ++ " attempts"))) ∨
    ((Retry (scriptedEnv networkFailure 7 false) DefaultRetryConfig 0).err.code?
        = some CodeTimeout ∧
      ((Retry (scriptedEnv networkFailure 7 false) DefaultRetryConfig 0).err.message?
          = some "context cancelled during retry" ∨
       (Retry (scriptedEnv networkFailure 7 false) DefaultRetryConfig 0).err.message?
          = some "context cancelled during retry delay")) :=
  Retry_error_message_attempt_count (scriptedEnv networkFailure 7 false) DefaultRetryConfig 0
    (by decide)
    (by
      simp [Retry, retryLoop, scriptedEnv, networkFailure, DefaultRetryConfig,
        isRetryableError, GoError.isNil, Wrap, newError, CodeNetworkError, CodeTimeout,
        CodeConnectionLost, CodeServiceUnavailable])

/-- C20 (as stated, refuted): the foreign failure "request timeout" is
classified `CodeTimeout`, which is in the `RetryableErrors` of
`DefaultRetryConfig`, yet `isRetryableError` judges it non-retryable; and under
`DefaultRetryConfig` with `MaxAttempts = 5` the operation of
`examples/errors-basic`, which fails twice with the plain failure
"temporary failure" and would then succeed, is invoked once and `Retry`
returns the non-retryable error. -/
theorem Retry_foreign_failure_not_retried_by_default :
    (ToError 0 (foreign "request timeout" nil)).code? = some CodeTimeout ∧
    CodeTimeout ∈ DefaultRetryConfig.RetryableErrors ∧
    isRetryableError (foreign "request timeout" nil) DefaultRetryConfig.RetryableErrors
      = false ∧
    (Retry (scriptedEnv (foreign "temporary failure" nil) 2 false)
      { DefaultRetryConfig with MaxAttempts := 5 } 0).calls.length = 1 ∧
    (Retry (scriptedEnv (foreign "temporary failure" nil) 2 false)
      { DefaultRetryConfig with MaxAttempts := 5 } 0).err
      = app CodeInternalError "non-retryable error after 1 attempts"
          (foreign "temporary failure" nil) none 0 := by
  refine ⟨by rw [ToError_code_eq_classifySpec]; decide, by decide, by decide, ?_, ?_⟩
  · simp [Retry, retryLoop, scriptedEnv, DefaultRetryConfig, isRetryableError,
      GoError.isNil, Wrap, newError, CodeNetworkError, CodeTimeout, CodeConnectionLost,
      CodeServiceUnavailable, CodeInternalError]
  · simp [Retry, retryLoop, scriptedEnv, DefaultRetryConfig, isRetryableError,
      GoError.isNil, Wrap, newError, CodeNetworkError, CodeTimeout, CodeConnectionLost,
      CodeServiceUnavailable, CodeInternalError]
    decide

theorem any_beq_iff_mem (c : ErrorCode) (codes : List ErrorCode) :
    codes.any (fun code => c == code) = true ↔ c ∈ codes := by
  rw [List.any_eq_true]
  constructor
  · rintro ⟨x, hx, hxe⟩
    have : c = x := by simpa using hxe
    exact this ▸ hx
  · intro h
    exact ⟨c, h, by simp⟩

theorem isRetryableError_app_iff (c : ErrorCode) (m : String) (cause : GoError)
    (md : Metadata) (ts : Int) (codes : List ErrorCode) :
    isRetryableError (app c m cause md ts) codes = true ↔ codes = [] ∨ c ∈ codes := by
  unfold isRetryableError
  by_cases hlen : codes.length = 0
  · simp [hlen, List.length_eq_zero.mp hlen]
  · have hne : codes ≠ [] := fun h => hlen (by rw [h]; rfl)
    simp only [hlen, if_false, any_beq_iff_mem, hne, false_or]

theorem isRetryableError_foreign_iff (msg : String) (u : GoError) (codes : List ErrorCode) :
    isRetryableError (foreign msg u) codes = true
      ↔ codes = [] ∨ CodeInternalError ∈ codes := by
  unfold isRetryableError
  by_cases hlen : codes.length = 0
  · simp [hlen, List.length_eq_zero.mp hlen]
  · have hne : codes ≠ [] := fun h => hlen (by rw [h]; rfl)
    simp only [hlen, if_false, any_beq_iff_mem, hne, false_or]

theorem retryLoop_success_within {σ : Type} (env : RetryEnv σ) (config : RetryConfig)
    (hctx : ∀ s, env.ctxErr s = false) (hwait : ∀ s d, (env.wait s d).1 = false) :
    ∀ (n attempt : Nat) (lastErr : GoError) (s : σ),
      ((attempt + n + 1 : Nat) : Int) ≤ config.MaxAttempts →
      (∀ j, j < n →
        (env.fn (worldFrom env config attempt s j)).1.isNil = false ∧
        isRetryableError (env.fn (worldFrom env config attempt s j)).1
          config.RetryableErrors = true) →
      (env.fn (worldFrom env config attempt s n)).1 = nil →
      (retryLoop env config attempt lastErr s).err = nil ∧
      (retryLoop env config attempt lastErr s).calls.length = n + 1 := by
  intro n
  induction n with
  | zero =>
    intro attempt lastErr s hmax _ hsucc
    rw [retryLoop]
    have h1 : (attempt : Int) < config.MaxAttempts := by omega
    simp only [worldFrom] at hsucc
    simp [h1, hsucc, GoError.isNil]
  | succ n ih =>
    intro attempt lastErr s hmax hfail hsucc
    have h0 := hfail 0 (Nat.succ_pos n)
    simp only [worldFrom] at h0
    have h1 : (attempt : Int) < config.MaxAttempts := by omega
    have h2 : ¬ ((attempt : Int) = config.MaxAttempts - 1) := by omega
    have ih1 := ih (attempt + 1) (env.fn s).1
      (env.wait (env.fn s).2 (calculateDelay config attempt (env.unixNano (env.fn s).2))).2
      (by push_cast at hmax ⊢; omega)
      (fun j hj => hfail (j + 1) (Nat.succ_lt_succ hj))
      hsucc
    rw [retryLoop]
    simp only [h1, h2, h0.1, h0.2, hctx, hwait, if_true, if_false, Bool.not_true,
      Bool.false_eq_true, List.length_cons]
    exact ⟨ih1.1, by rw [ih1.2]⟩

/-- C20 (amended): `Retry` judges a failure retryable exactly when
`RetryableErrors` is empty or contains the failure's code, which is the `Code`
of an `*Error` and `CodeInternalError` for every foreign failure, whatever its
message. Consequently, with `MaxAttempts = 5` and `RetryableErrors` empty or
containing `CodeInternalError`, when cancellation never fires an operation that
fails twice with a plain foreign failure and then succeeds is invoked three
times and `Retry` returns nil. -/
theorem Retry_retryable_by_own_code {σ : Type} (env : RetryEnv σ)
    (config : RetryConfig) (s : σ) (msg1 msg2 : String) (u1 u2 : GoError)
    (hmax : config.MaxAttempts = 5)
    (hcodes : config.RetryableErrors = [] ∨ CodeInternalError ∈ config.RetryableErrors)
    (hctx : ∀ w, env.ctxErr w = false) (hwait : ∀ w d, (env.wait w d).1 = false)
    (hfirst : (env.fn (worldFrom env config 0 s 0)).1 = foreign msg1 u1)
    (hsecond : (env.fn (worldFrom env config 0 s 1)).1 = foreign msg2 u2)
    (hthird : (env.fn (worldFrom env config 0 s 2)).1 = nil) :
    (∀ (c : ErrorCode) (m : String) (cause : GoError) (md : Metadata) (ts : Int)
        (codes : List ErrorCode),
      isRetryableError (app c m cause md ts) codes = true ↔ codes = [] ∨ c ∈ codes) ∧
    (∀ (msg : String) (u : GoError) (codes : List ErrorCode),
      isRetryableError (foreign msg u) codes = true
        ↔ codes = [] ∨ CodeInternalError ∈ codes) ∧
    (Retry env config s).calls.length = 3 ∧
    (Retry env config s).err = nil := by
  have key := retryLoop_success_within env config hctx hwait 2 0 nil s
    (by rw [hmax]; decide)
    (fun j hj => by
      have hj2 : j = 0 ∨ j = 1 := by omega
      rcases hj2 with rfl | rfl
      · rw [hfirst]
        exact ⟨rfl, (isRetryableError_foreign_iff msg1 u1 _).mpr hcodes⟩
      · rw [hsecond]
        exact ⟨rfl, (isRetryableError_foreign_iff msg2 u2 _).mpr hcodes⟩)
    hthird
  exact ⟨isRetryableError_app_iff, isRetryableError_foreign_iff, key.2, key.1⟩

theorem Retry_retryable_by_own_code_witness :
    (∀ (c : ErrorCode) (m : String) (cause : GoError) (md : Metadata) (ts : Int)
        (codes : List ErrorCode),
      isRetryableError (app c m cause md ts) codes = true ↔ codes = [] ∨ c ∈ codes) ∧
    (∀ (msg : String) (u : GoError) (codes : List ErrorCode),
      isRetryableError (foreign msg u) codes = true
        ↔ codes = [] ∨ CodeInternalError ∈ codes) ∧
    (Retry (scriptedEnv (foreign "temporary failure" nil) 2 false)
      { DefaultRetryConfig with
          MaxAttempts := 5,
          RetryableErrors := CodeInternalError :: DefaultRetryConfig.RetryableErrors }
      0).calls.length = 3 ∧
    (Retry (scriptedEnv (foreign "temporary failure" nil) 2 false)
      { DefaultRetryConfig with
          MaxAttempts := 5,
          RetryableErrors := CodeInternalError :: DefaultRetryConfig.RetryableErrors }
      0).err = nil :=
  Retry_retryable_by_own_code (scriptedEnv (foreign "temporary failure" nil) 2 false)
    { DefaultRetryConfig with
        MaxAttempts := 5,
        RetryableErrors := CodeInternalError :: DefaultRetryConfig.RetryableErrors }
    0 "temporary failure" "temporary failure" nil nil
    rfl (Or.inr (List.mem_cons_self _ _)) (fun _ => rfl) (fun _ _ => rfl) rfl rfl rfl

/-! ## Properties of `calculateDelay` -/

theorem truncToDuration_intCast (z : Int) : truncToDuration (z : ℚ) = z := by
  simp [truncToDuration]

theorem truncToDuration_of_nonneg (x : ℚ) (hx : 0 ≤ x) : truncToDuration x = ⌊x⌋ := by
  unfold truncToDuration
  rw [Rat.floor_def]
  exact Int.tdiv_eq_ediv (Rat.num_nonneg.mpr hx) (Int.ofNat_nonneg _)

theorem calculateDelay_no_jitter (config : RetryConfig) (attempt : Nat) (unixNano : Int)
    (hj : config.Jitter = false) :
    calculateDelay config attempt unixNano
      = truncToDuration (min ((config.InitialDelay : ℚ) * config.Multiplier ^ attempt)
          (config.MaxDelay : ℚ)) := by
  unfold calculateDelay
  simp only [hj, Bool.false_eq_true, if_false]
  congr 1
  rw [min_def]
  by_cases h : (config.InitialDelay : ℚ) * config.Multiplier ^ attempt > (config.MaxDelay : ℚ)
  · simp [h, not_le.mpr h]
  · have h2 : (config.InitialDelay : ℚ) * config.Multiplier ^ attempt ≤ (config.MaxDelay : ℚ) :=
      not_lt.mp h
    simp [h, h2]

theorem calculateDelay_of_whole (config : RetryConfig) (attempt : Nat) (unixNano : Int)
    (hj : config.Jitter = false) (z : Int)
    (hz : min ((config.InitialDelay : ℚ) * config.Multiplier ^ attempt) (config.MaxDelay : ℚ)
      = (z : ℚ)) :
    calculateDelay config attempt unixNano = z := by
  rw [calculateDelay_no_jitter config attempt unixNano hj, hz, truncToDuration_intCast]

/-- C21 (as stated, refuted): with jitter disabled, `InitialDelay = 100ms`,
`Multiplier = 1.5` and `MaxDelay = 10s`, the delay after attempt 9 is
3844335937 ns, while `min(InitialDelay × Multiplier^9, MaxDelay)` is
3844335937.5 ns. -/
theorem calculateDelay_drops_fraction :
    calculateDelay
      { DefaultRetryConfig with MaxAttempts := 11, Multiplier := 3 / 2, Jitter := false } 9 0
      = 3844335937 ∧
    min (((100 * Millisecond : Int) : ℚ) * (3 / 2 : ℚ) ^ 9) ((10 * Second : Int) : ℚ)
      = 7688671875 / 2 ∧
    ((calculateDelay
        { DefaultRetryConfig with MaxAttempts := 11, Multiplier := 3 / 2, Jitter := false } 9 0
        : Int) : ℚ)
      ≠ min (((100 * Millisecond : Int) : ℚ) * (3 / 2 : ℚ) ^ 9) ((10 * Second : Int) : ℚ) := by
  have hmin : min (((100 * Millisecond : Int) : ℚ) * (3 / 2 : ℚ) ^ 9)
      ((10 * Second : Int) : ℚ) = 7688671875 / 2 := by
    norm_num [Millisecond, Second]
  have hval : calculateDelay
      { DefaultRetryConfig with MaxAttempts := 11, Multiplier := 3 / 2, Jitter := false } 9 0
      = 3844335937 := by
    rw [calculateDelay_no_jitter _ _ _ rfl]
    simp only [DefaultRetryConfig]
    rw [hmin, truncToDuration_of_nonneg _ (by norm_num), Int.floor_eq_iff]
    constructor <;> norm_num
  refine ⟨hval, hmin, ?_⟩
  rw [hval, hmin]
  norm_num

/-- C21 (amended): with jitter disabled, for every attempt index, whenever
`Multiplier` is a whole number `k`, `InitialDelay` and `MaxDelay` are not
negative, and `k^attempt`, `InitialDelay × k^attempt` and `MaxDelay` are below
`2^53` (so that `float64` computes every intermediate value exactly),
`calculateDelay(config, attempt)` equals `min(InitialDelay × k^attempt,
MaxDelay)` and lies between 0 and `MaxDelay`. With `MaxAttempts = 5`,
`InitialDelay = 100ms`, `Multiplier = 2`, `MaxDelay = 10s` the four
inter-attempt delays are 100, 200, 400 and 800 ms. -/
theorem calculateDelay_exact_for_whole_multiplier (config : RetryConfig) (attempt : Nat)
    (unixNano : Int) (k : Nat) (hexact : exactWithoutJitter config attempt k) :
    calculateDelay config attempt unixNano
      = min (config.InitialDelay * (k : Int) ^ attempt) config.MaxDelay ∧
    0 ≤ calculateDelay config attempt unixNano ∧
    calculateDelay config attempt unixNano ≤ config.MaxDelay ∧
    [0, 1, 2, 3].map
        (fun a => calculateDelay
          { DefaultRetryConfig with MaxAttempts := 5, Jitter := false } a unixNano)
      = [100 * Millisecond, 200 * Millisecond, 400 * Millisecond, 800 * Millisecond] := by
  obtain ⟨hj, hk, hinit, _, _, hmax0, _⟩ := hexact
  have hval : calculateDelay config attempt unixNano
      = min (config.InitialDelay * (k : Int) ^ attempt) config.MaxDelay := by
    apply calculateDelay_of_whole config attempt unixNano hj
    rw [hk]
    push_cast
    rfl
  have hnonneg : 0 ≤ config.InitialDelay * (k : Int) ^ attempt :=
    mul_nonneg hinit (pow_nonneg (Int.ofNat_nonneg k) attempt)
  refine ⟨hval, ?_, ?_, ?_⟩
  · rw [hval]; exact le_min hnonneg hmax0
  · rw [hval]; exact min_le_right _ _
  · simp only [List.map_cons, List.map_nil]
    rw [calculateDelay_of_whole _ 0 unixNano rfl (100 * Millisecond)
          (by norm_num [DefaultRetryConfig, Millisecond, Second]),
        calculateDelay_of_whole _ 1 unixNano rfl (200 * Millisecond)
          (by norm_num [DefaultRetryConfig, Millisecond, Second]),
        calculateDelay_of_whole _ 2 unixNano rfl (400 * Millisecond)
          (by norm_num [DefaultRetryConfig, Millisecond, Second]),
        calculateDelay_of_whole _ 3 unixNano rfl (800 * Millisecond)
          (by norm_num [DefaultRetryConfig, Millisecond, Second])]

theorem calculateDelay_exact_for_whole_multiplier_witness :
    exactWithoutJitter { DefaultRetryConfig with MaxAttempts := 5, Jitter := false } 3 2 ∧
    calculateDelay { DefaultRetryConfig with MaxAttempts := 5, Jitter := false } 3 0
      = min (100 * Millisecond * ((2 : Nat) : Int) ^ 3) (10 * Second) ∧
    0 ≤ calculateDelay { DefaultRetryConfig with MaxAttempts := 5, Jitter := false } 3 0 ∧
    calculateDelay { DefaultRetryConfig with MaxAttempts := 5, Jitter := false } 3 0
      ≤ 10 * Second ∧
    [0, 1, 2, 3].map
        (fun a => calculateDelay
          { DefaultRetryConfig with MaxAttempts := 5, Jitter := false } a 0)
      = [100 * Millisecond, 200 * Millisecond, 400 * Millisecond, 800 * Millisecond] :=
  ⟨⟨rfl, by simp [DefaultRetryConfig], by decide, by decide, by decide, by decide, by decide⟩,
   calculateDelay_exact_for_whole_multiplier
    { DefaultRetryConfig with MaxAttempts := 5, Jitter := false } 3 0 2
    ⟨rfl, by simp [DefaultRetryConfig], by decide, by decide, by decide, by decide,
      by decide⟩⟩

theorem calculateDelay_with_jitter (config : RetryConfig) (attempt : Nat) (unixNano : Int)
    (hj : config.Jitter = true) :
    calculateDelay config attempt unixNano
      = truncToDuration
          (min ((config.InitialDelay : ℚ) * config.Multiplier ^ attempt) (config.MaxDelay : ℚ)
            * (19 / 20 + (unixNano : ℚ) / 10000000000)) := by
  unfold calculateDelay
  simp only [hj, if_true]
  congr 1
  rw [min_def]
  by_cases h : (config.InitialDelay : ℚ) * config.Multiplier ^ attempt > (config.MaxDelay : ℚ)
  · simp only [h, not_le.mpr h, if_true, if_false]
    ring
  · have h2 : (config.InitialDelay : ℚ) * config.Multiplier ^ attempt ≤ (config.MaxDelay : ℚ) :=
      not_lt.mp h
    simp only [h, h2, if_true, if_false]
    ring

/-- C22 (the code at the failing input): under `DefaultRetryConfig` (jitter
enabled, base delay 100ms at attempt 0) with the clock reading
`UnixNano() = 1700000000000000000`, `calculateDelay` returns
17000000095000000 ns, about 197 days, which is not within 10% of the base
delay of 100000000 ns. -/
theorem calculateDelay_jitter_far_from_base :
    calculateDelay DefaultRetryConfig 0 1700000000000000000 = 17000000095000000 ∧
    min ((DefaultRetryConfig.InitialDelay : ℚ) * DefaultRetryConfig.Multiplier ^ 0)
        (DefaultRetryConfig.MaxDelay : ℚ) = 100000000 ∧
    ¬ (|((calculateDelay DefaultRetryConfig 0 1700000000000000000 : Int) : ℚ)
          - min ((DefaultRetryConfig.InitialDelay : ℚ) * DefaultRetryConfig.Multiplier ^ 0)
              (DefaultRetryConfig.MaxDelay : ℚ)|
        ≤ (1 / 10) * min ((DefaultRetryConfig.InitialDelay : ℚ)
              * DefaultRetryConfig.Multiplier ^ 0) (DefaultRetryConfig.MaxDelay : ℚ)) := by
  have hmin : min ((DefaultRetryConfig.InitialDelay : ℚ) * DefaultRetryConfig.Multiplier ^ 0)
      (DefaultRetryConfig.MaxDelay : ℚ) = 100000000 := by
    norm_num [DefaultRetryConfig, Millisecond, Second]
  have hval : calculateDelay DefaultRetryConfig 0 1700000000000000000
      = 17000000095000000 := by
    rw [calculateDelay_with_jitter _ _ _ rfl, hmin]
    have hq : (100000000 : ℚ) * (19 / 20 + ((1700000000000000000 : Int) : ℚ) / 10000000000)
        = ((17000000095000000 : Int) : ℚ) := by norm_num
    rw [hq, truncToDuration_intCast]
  refine ⟨hval, hmin, ?_⟩
  rw [hval, hmin]
  norm_num

/-! ## Further properties of `CircuitBreaker` -/

/-- C23 (as stated, refuted): an Open breaker whose `resetTimeout` has elapsed
runs the operation as a HalfOpen probe entered with `halfOpenAttempts = 0`;
when the probe succeeds, `halfOpenAttempts` is 0 when `Execute` returns, not 1. -/
theorem Execute_probe_success_resets_halfOpenAttempts :
    (Execute clockOf succeedingOp
      { databaseBreaker with state := stateOpen, failureCount := 3, lastFailure := 2 * Second }
      (13 * Second)).ran
      = some { databaseBreaker with state := stateHalfOpen, failureCount := 3,
                                    lastFailure := 2 * Second, halfOpenAttempts := 0 } ∧
    (Execute clockOf succeedingOp
      { databaseBreaker with state := stateOpen, failureCount := 3, lastFailure := 2 * Second }
      (13 * Second)).cb.halfOpenAttempts = 0 ∧
    (Execute clockOf succeedingOp
      { databaseBreaker with state := stateOpen, failureCount := 3, lastFailure := 2 * Second }
      (13 * Second)).cb.halfOpenAttempts ≠ 0 + 1 := by
  decide

theorem Execute_probe_halfOpenAttempts {σ : Type} (now : σ → Int) (fn : σ → GoError × σ)
    (cb : CircuitBreaker) (s : σ) (probe : CircuitBreaker)
    (hran : (Execute now fn cb s).ran = some probe)
    (hprobe : probe.state = stateHalfOpen) :
    ((fn s).1.isNil = false →
      (Execute now fn cb s).cb.halfOpenAttempts = probe.halfOpenAttempts + 1) ∧
    ((fn s).1.isNil = true → (Execute now fn cb s).cb.halfOpenAttempts = 0) := by
  cases hst : cb.state with
  | stateClosed =>
    simp only [Execute, hst, executeFn, Option.some.injEq] at hran
    rw [← hran, hst] at hprobe
    exact absurd hprobe (by decide)
  | stateOpen =>
    by_cases hel : now s - cb.lastFailure > cb.resetTimeout
    · simp only [Execute, hst, hel, if_true, executeFn, Option.some.injEq] at hran
      subst hran
      constructor <;> intro h <;> simp [Execute, hst, hel, executeFn, updateState, h]
    · simp [Execute, hst, hel] at hran
  | stateHalfOpen =>
    by_cases hex : cb.halfOpenAttempts ≥ cb.halfOpenMaxAttempts
    · simp [Execute, hst, hex] at hran
    · simp only [Execute, hst, hex, if_false, executeFn, Option.some.injEq] at hran
      subst hran
      constructor <;> intro h <;> simp [Execute, hst, hex, executeFn, updateState, h]

/-- C23 (amended): for every breaker that is HalfOpen at the entry of `Execute`
with `halfOpenAttempts ≥ halfOpenMaxAttempts`, `Execute` does not invoke the
operation, returns the `CodeServiceUnavailable` error "half-open attempts
exhausted", and leaves the breaker Open with `lastFailure` the current time and
nothing else changed. And every call that runs the operation while HalfOpen
leaves `halfOpenAttempts` one higher than it was when the operation was
entered if the operation fails, and resets it to 0 if the operation succeeds. -/
theorem Execute_halfOpen_exhausted_rejects {σ : Type} (now : σ → Int)
    (fn : σ → GoError × σ) (cb : CircuitBreaker) (s : σ)
    (hhalf : cb.state = stateHalfOpen)
    (hex : cb.halfOpenAttempts ≥ cb.halfOpenMaxAttempts) :
    (Execute now fn cb s).ran = none ∧
    (Execute now fn cb s).err
      = app CodeServiceUnavailable
          ("circuit breaker '" ++ cb.name ++ "' half-open attempts exhausted")
          nil none (now s) ∧
    (Execute now fn cb s).cb = { cb with state := stateOpen, lastFailure := now s } ∧
    (Execute now fn cb s).final = s ∧
    (∀ (fn2 : σ → GoError × σ) (cb2 : CircuitBreaker) (s2 : σ) (probe : CircuitBreaker),
      (Execute now fn2 cb2 s2).ran = some probe → probe.state = stateHalfOpen →
      ((fn2 s2).1.isNil = false →
        (Execute now fn2 cb2 s2).cb.halfOpenAttempts = probe.halfOpenAttempts + 1) ∧
      ((fn2 s2).1.isNil = true → (Execute now fn2 cb2 s2).cb.halfOpenAttempts = 0)) := by
  refine ⟨?_, ?_, ?_, ?_, ?_⟩
  · simp [Execute, hhalf, hex]
  · simp [Execute, hhalf, hex, New, newError]
  · simp [Execute, hhalf, hex]
  · simp [Execute, hhalf, hex]
  · intro fn2 cb2 s2 probe hran hprobe
    exact Execute_probe_halfOpenAttempts now fn2 cb2 s2 probe hran hprobe

theorem Execute_halfOpen_exhausted_rejects_witness :
    (Execute clockOf failingOp
      { databaseBreaker with state := stateHalfOpen, failureCount := 3,
                             lastFailure := 2 * Second, halfOpenAttempts := 3 }
      (5 * Second)).ran = none ∧
    (Execute clockOf failingOp
      { databaseBreaker with state := stateHalfOpen, failureCount := 3,
                             lastFailure := 2 * Second, halfOpenAttempts := 3 }
      (5 * Second)).err
      = app CodeServiceUnavailable
          ("circuit breaker '" ++ "database" ++ "' half-open attempts exhausted")
          nil none (5 * Second) ∧
    (Execute clockOf failingOp
      { databaseBreaker with state := stateHalfOpen, failureCount := 3,
                             lastFailure := 2 * Second, halfOpenAttempts := 3 }
      (5 * Second)).cb
      = { databaseBreaker with state := stateOpen, failureCount := 3,
                               lastFailure := 5 * Second, halfOpenAttempts := 3 } ∧
    (Execute clockOf failingOp
      { databaseBreaker with state := stateHalfOpen, failureCount := 3,
                             lastFailure := 2 * Second, halfOpenAttempts := 3 }
      (5 * Second)).final = 5 * Second ∧
    (Execute clockOf failingOp
      { databaseBreaker with state := stateHalfOpen, failureCount := 3,
                             lastFailure := 2 * Second, halfOpenAttempts := 1 }
      (5 * Second)).cb.halfOpenAttempts = 1 + 1 ∧
    (Execute clockOf succeedingOp
      { databaseBreaker with state := stateHalfOpen, failureCount := 3,
                             lastFailure := 2 * Second, halfOpenAttempts := 1 }
      (5 * Second)).cb.halfOpenAttempts = 0 :=
  (fun h =>
    ⟨h.1, h.2.1, h.2.2.1, h.2.2.2.1,
     (h.2.2.2.2 failingOp
        { databaseBreaker with state := stateHalfOpen, failureCount := 3,
                               lastFailure := 2 * Second, halfOpenAttempts := 1 }
        (5 * Second)
        { databaseBreaker with state := stateHalfOpen, failureCount := 3,
                               lastFailure := 2 * Second, halfOpenAttempts := 1 }
        (by decide) rfl).1 rfl,
     (h.2.2.2.2 succeedingOp
        { databaseBreaker with state := stateHalfOpen, failureCount := 3,
                               lastFailure := 2 * Second, halfOpenAttempts := 1 }
        (5 * Second)
        { databaseBreaker with state := stateHalfOpen, failureCount := 3,
                               lastFailure := 2 * Second, halfOpenAttempts := 1 }
        (by decide) rfl).2 rfl⟩)
    (Execute_halfOpen_exhausted_rejects clockOf failingOp
      { databaseBreaker with state := stateHalfOpen, failureCount := 3,
                             lastFailure := 2 * Second, halfOpenAttempts := 3 }
      (5 * Second) rfl (by decide))

theorem Execute_preserves_closed_or_open {σ : Type} (now : σ → Int)
    (fn : σ → GoError × σ) (cb : CircuitBreaker) (s : σ) (hn : 1 ≤ cb.failureThreshold)
    (hinv : (cb.state = stateClosed ∧ 0 ≤ cb.failureCount ∧
              cb.failureCount < cb.failureThreshold) ∨
            (cb.state = stateOpen ∧ cb.failureCount = cb.failureThreshold)) :
    (Execute now fn cb s).cb.failureThreshold = cb.failureThreshold ∧
    (Execute now fn cb s).cb.name = cb.name ∧
    (((Execute now fn cb s).cb.state = stateClosed ∧ 0 ≤ (Execute now fn cb s).cb.failureCount ∧
        (Execute now fn cb s).cb.failureCount < cb.failureThreshold) ∨
     ((Execute now fn cb s).cb.state = stateOpen ∧
        (Execute now fn cb s).cb.failureCount = cb.failureThreshold)) ∧
    ((Execute now fn cb s).ran = none →
      (Execute now fn cb s).err
        = app CodeServiceUnavailable ("circuit breaker '" ++ cb.name ++ "' is open")
            nil none (now (Execute now fn cb s).final) ∧
      (Execute now fn cb s).cb.state = stateOpen) := by
  rcases hinv with ⟨hst, h0, hlt⟩ | ⟨hst, hfc⟩
  · by_cases hnil : (fn s).1.isNil = true
    · simp [Execute, executeFn, updateState, hst, hnil]
      omega
    · have hnil2 : (fn s).1.isNil = false := by simpa using hnil
      by_cases hge : cb.failureCount + 1 ≥ cb.failureThreshold
      · simp [Execute, executeFn, updateState, hst, hnil2, hge]
        omega
      · simp [Execute, executeFn, updateState, hst, hnil2, hge]
        omega
  · by_cases hel : now s - cb.lastFailure > cb.resetTimeout
    · by_cases hnil : (fn s).1.isNil = true
      · simp [Execute, executeFn, updateState, hst, hel, hnil]
        omega
      · have hnil2 : (fn s).1.isNil = false := by simpa using hnil
        simp [Execute, executeFn, updateState, hst, hel, hnil2]
    · simp [Execute, hst, hel, hfc, New, newError]

theorem breakerAfter_closed_or_open {σ : Type} (now : σ → Int) (name : String) (n : Int) :
    ∀ (calls : List (Invocation σ)) (cb : CircuitBreaker),
      1 ≤ n → cb.failureThreshold = n → cb.name = name →
      ((cb.state = stateClosed ∧ 0 ≤ cb.failureCount ∧ cb.failureCount < n) ∨
        (cb.state = stateOpen ∧ cb.failureCount = n)) →
      (((breakerAfter now cb calls).state = stateClosed ∧
          0 ≤ (breakerAfter now cb calls).failureCount ∧
          (breakerAfter now cb calls).failureCount < n) ∨
        ((breakerAfter now cb calls).state = stateOpen ∧
          (breakerAfter now cb calls).failureCount = n)) ∧
      (∀ r ∈ ExecuteSeq now cb calls, r.ran = none →
        r.err = app CodeServiceUnavailable ("circuit breaker '" ++ name ++ "' is open")
            nil none (now r.final) ∧
        r.cb.state = stateOpen) := by
  intro calls
  induction calls with
  | nil =>
    intro cb _ _ _ hinv
    exact ⟨hinv, fun r hr => absurd hr (List.not_mem_nil r)⟩
  | cons c cs ih =>
    intro cb hn hth hname hinv
    have hstep := Execute_preserves_closed_or_open now c.fn cb c.world (by omega)
      (by rw [hth]; exact hinv)
    rw [hth, hname] at hstep
    obtain ⟨hth2, hname2, hinv2, hrej⟩ := hstep
    have ih1 := ih (Execute now c.fn cb c.world).cb hn hth2 hname2 hinv2
    refine ⟨ih1.1, ?_⟩
    intro r hr
    simp only [ExecuteSeq, List.mem_cons] at hr
    rcases hr with rfl | hr
    · exact hrej
    · exact ih1.2 r hr

/-- C24: for a breaker created by `NewCircuitBreaker` with
`failureThreshold = n ≥ 1` and used by one caller at a time, after every finite
sequence of `Execute` calls, whatever the operations return and whatever the
clock reads, the breaker is Closed with `0 ≤ failureCount < n` or Open with
`failureCount = n`; it is not HalfOpen when `Execute` returns, and every call
of the sequence that does not invoke the operation is the rejection of an Open
breaker, so the half-open-attempts-exhausted rejection does not occur. -/
theorem CircuitBreaker_closed_or_open_after_calls {σ : Type} (now : σ → Int)
    (name : String) (n : Int) (resetTimeout : Int) (calls : List (Invocation σ))
    (hn : 1 ≤ n) :
    (((breakerAfter now (NewCircuitBreaker name n resetTimeout) calls).state = stateClosed ∧
        0 ≤ (breakerAfter now (NewCircuitBreaker name n resetTimeout) calls).failureCount ∧
        (breakerAfter now (NewCircuitBreaker name n resetTimeout) calls).failureCount < n) ∨
      ((breakerAfter now (NewCircuitBreaker name n resetTimeout) calls).state = stateOpen ∧
        (breakerAfter now (NewCircuitBreaker name n resetTimeout) calls).failureCount = n)) ∧
    (breakerAfter now (NewCircuitBreaker name n resetTimeout) calls).state ≠ stateHalfOpen ∧
    (∀ r ∈ ExecuteSeq now (NewCircuitBreaker name n resetTimeout) calls, r.ran = none →
      r.err = app CodeServiceUnavailable ("circuit breaker '" ++ name ++ "' is open")
          nil none (now r.final) ∧
      r.cb.state = stateOpen) := by
  have key := breakerAfter_closed_or_open now name n calls
    (NewCircuitBreaker name n resetTimeout) hn rfl rfl
    (Or.inl ⟨rfl, le_refl _, by simp only [NewCircuitBreaker]; omega⟩)
  refine ⟨key.1, ?_, key.2⟩
  rcases key.1 with ⟨h, _⟩ | ⟨h, _⟩ <;> rw [h] <;> decide

theorem CircuitBreaker_closed_or_open_after_calls_witness :
    (((breakerAfter clockOf (NewCircuitBreaker "database" 3 (10 * Second))
          [⟨failingOp, 0⟩, ⟨failingOp, Second⟩, ⟨failingOp, 2 * Second⟩,
           ⟨succeedingOp, 3 * Second⟩, ⟨failingOp, 13 * Second⟩]).state = stateClosed ∧
        0 ≤ (breakerAfter clockOf (NewCircuitBreaker "database" 3 (10 * Second))
          [⟨failingOp, 0⟩, ⟨failingOp, Second⟩, ⟨failingOp, 2 * Second⟩,
           ⟨succeedingOp, 3 * Second⟩, ⟨failingOp, 13 * Second⟩]).failureCount ∧
        (breakerAfter clockOf (NewCircuitBreaker "database" 3 (10 * Second))
          [⟨failingOp, 0⟩, ⟨failingOp, Second⟩, ⟨failingOp, 2 * Second⟩,
           ⟨succeedingOp, 3 * Second⟩, ⟨failingOp, 13 * Second⟩]).failureCount < 3) ∨
      ((breakerAfter clockOf (NewCircuitBreaker "database" 3 (10 * Second))
          [⟨failingOp, 0⟩, ⟨failingOp, Second⟩, ⟨failingOp, 2 * Second⟩,
           ⟨succeedingOp, 3 * Second⟩, ⟨failingOp, 13 * Second⟩]).state = stateOpen ∧
        (breakerAfter clockOf (NewCircuitBreaker "database" 3 (10 * Second))
          [⟨failingOp, 0⟩, ⟨failingOp, Second⟩, ⟨failingOp, 2 * Second⟩,
           ⟨succeedingOp, 3 * Second⟩, ⟨failingOp, 13 * Second⟩]).failureCount = 3)) ∧
    (breakerAfter clockOf (NewCircuitBreaker "database" 3 (10 * Second))
      [⟨failingOp, 0⟩, ⟨failingOp, Second⟩, ⟨failingOp, 2 * Second⟩,
       ⟨succeedingOp, 3 * Second⟩, ⟨failingOp, 13 * Second⟩]).state ≠ stateHalfOpen ∧
    (∀ r ∈ ExecuteSeq clockOf (NewCircuitBreaker "database" 3 (10 * Second))
        [⟨failingOp, 0⟩, ⟨failingOp, Second⟩, ⟨failingOp, 2 * Second⟩,
         ⟨succeedingOp, 3 * Second⟩, ⟨failingOp, 13 * Second⟩],
      r.ran = none →
      r.err = app CodeServiceUnavailable ("circuit breaker '" ++ "database" ++ "' is open")
          nil none (clockOf r.final) ∧
      r.cb.state = stateOpen) :=
  CircuitBreaker_closed_or_open_after_calls clockOf "database" 3 (10 * Second)
    [⟨failingOp, 0⟩, ⟨failingOp, Second⟩, ⟨failingOp, 2 * Second⟩,
     ⟨succeedingOp, 3 * Second⟩, ⟨failingOp, 13 * Second⟩]
    (by decide)

/-- C25: on every `Execute` call, either the operation is invoked (the breaker
is Closed, or Open with `resetTimeout` exceeded, or HalfOpen below
`halfOpenMaxAttempts`), and then it is invoked once, the world is the one that
invocation left, and `Execute` returns exactly what the operation returned, nil
or the failure itself; or the operation is not invoked, the world is untouched
and `Execute` returns a `CodeServiceUnavailable` error of its own, without
cause. -/
theorem Execute_returns_operation_result {σ : Type} (now : σ → Int)
    (fn : σ → GoError × σ) (cb : CircuitBreaker) (s : σ) :
    (((Execute now fn cb s).ran.isSome = true ∧
        (Execute now fn cb s).err = (fn s).1 ∧
        (Execute now fn cb s).final = (fn s).2) ∨
     ((Execute now fn cb s).ran = none ∧
        (Execute now fn cb s).final = s ∧
        (Execute now fn cb s).err.code? = some CodeServiceUnavailable ∧
        (Execute now fn cb s).err.cause? = some nil)) ∧
    ((Execute now fn cb s).ran.isSome = true ↔
      (cb.state = stateClosed ∨
       (cb.state = stateOpen ∧ now s - cb.lastFailure > cb.resetTimeout) ∨
       (cb.state = stateHalfOpen ∧ cb.halfOpenAttempts < cb.halfOpenMaxAttempts))) := by
  cases hst : cb.state with
  | stateClosed => simp [Execute, hst, executeFn]
  | stateOpen =>
    by_cases hel : now s - cb.lastFailure > cb.resetTimeout
    · simp [Execute, hst, hel, executeFn]
    · simp [Execute, hst, hel, New, newError, GoError.code?, GoError.cause?]
  | stateHalfOpen =>
    by_cases hex : cb.halfOpenAttempts ≥ cb.halfOpenMaxAttempts
    · simp [Execute, hst, hex, New, newError, GoError.code?, GoError.cause?]
    · simp [Execute, hst, hex, executeFn]
      omega

end Errors
